import Mathlib

/-!
GPU object / context registry of `al_GPUObject.cpp` and the graphics domain
of `al_GraphicsDomain.cpp`.

A shallow embedding of `src/src/core/gl/al_GPUObject.cpp` and of
`src/extensions/al_ext/distributed/src/al_GraphicsDomain.cpp`.

* A `GPUObject *` is its address, a natural number.
* `std::set<GPUObject *>` (`ResourceSet`) is the ascending list of its
  elements, which is also the order in which the source iterates over it.
* `std::map<K, V>` is a function `K → Option V`; `find(k) == end()` is
  `none`.
* The two process-wide maps `getContextMap()` and `getResourceMap()` are the
  two fields of `Registry`.
* The pure virtual hooks `onCreate` / `onDestroy` are defined by subclasses
  that are not part of this file; they are a parameter (`Hooks`).
* Every call of `create` / `destroy` and every hook invocation is recorded in
  a chronological log, which is ghost state used to state ordering
  properties.
* Context objects live in `Sys`, next to the map `getContexts()` and the
  counter of `getNextContextID`; a run of context operations is `runCtx`.
* `GraphicsDomain::start` / `stop` record every call they make in a trace;
  the quit flag and the sub-domains are given by an environment (`Env`), and
  the main loop runs on fuel.
-/

namespace al

/-! ## Containers -/

/-- The `std::set<al::GPUObject *>` typedef: elements in ascending order. -/
abbrev ResourceSet := List Nat

/-- The `std::set::insert` operation: ordered insertion, nothing happens when
the element is already present. -/
def ResourceSet.insert (r : Nat) : ResourceSet → ResourceSet
  | [] => [r]
  | x :: xs =>
    if r < x then r :: x :: xs
    else if r = x then x :: xs
    else x :: ResourceSet.insert r xs

/-- The `std::set::find` operation, as the test `find(r) != end()`. -/
def ResourceSet.find (r : Nat) (s : ResourceSet) : Bool := s.contains r

/-- The `std::set::erase(iterator)` operation on the position of `r`. -/
def ResourceSet.erase (r : Nat) : ResourceSet → ResourceSet
  | [] => []
  | x :: xs => if x = r then xs else x :: ResourceSet.erase r xs

/-- Assignment `m[k] = v` of a `std::map`. -/
def mapSet {K V : Type} [DecidableEq K] (m : K → Option V) (k : K) (v : V) :
    K → Option V :=
  fun j => if j = k then some v else m j

/-- The `std::map::erase(iterator)` operation on the entry of key `k`. -/
def mapErase {K V : Type} [DecidableEq K] (m : K → Option V) (k : K) :
    K → Option V :=
  fun j => if j = k then none else m j

/-! ## The registry -/

/-- The two global maps: `contexts` is `getContextMap()` (context id to
resource set), `resources` is `getResourceMap()` (resource to context id). -/
structure Registry where
  contexts : Int → Option ResourceSet
  resources : Nat → Option Int

/-- Both maps freshly constructed. -/
def Registry.empty : Registry :=
  { contexts := fun _ => none, resources := fun _ => none }

/-- Embedding of `GPUObject::contextUnregister` for the object at address `r`. -/
def contextUnregister (r : Nat) (g : Registry) : Registry :=
  match g.resources r with
  | none => g
  | some c =>
    let contexts :=
      match g.contexts c with
      | none => g.contexts
      | some s =>
        if ResourceSet.find r s then mapSet g.contexts c (ResourceSet.erase r s)
        else g.contexts
    { contexts := contexts, resources := mapErase g.resources r }

/-- Embedding of `GPUObject::contextRegister` for the object at address `r`;
`contexts[ctx]` default-constructs an empty set when the key is absent. -/
def contextRegister (r : Nat) (ctx : Int) (g : Registry) : Registry :=
  let g1 := contextUnregister r g
  let s := (g1.contexts ctx).getD []
  { contexts := mapSet g1.contexts ctx (ResourceSet.insert r s),
    resources := mapSet g1.resources r ctx }

/-- Resource `r` is an element of the set that `contexts` maps `c` to. -/
def inSet (g : Registry) (c : Int) (r : Nat) : Prop :=
  match g.contexts c with
  | none => False
  | some s => r ∈ s

instance (g : Registry) (c : Int) (r : Nat) : Decidable (inSet g c r) := by
  unfold inSet; cases g.contexts c <;> infer_instance

/-- One call on the registry. -/
inductive RegOp where
  | register (r : Nat) (ctx : Int)
  | unregister (r : Nat)

/-- Effect of one call. -/
def RegOp.run : RegOp → Registry → Registry
  | .register r ctx, g => contextRegister r ctx g
  | .unregister r, g => contextUnregister r g

/-- Effect of a finite sequence of calls, first call first. -/
def runOps (ops : List RegOp) (g : Registry) : Registry :=
  ops.foldl (fun g op => op.run g) g

/-- Registry states the program can be in: those obtained from the two empty
maps by `contextRegister` / `contextUnregister` calls (the only code that
writes to the maps). -/
inductive Reachable : Registry → Prop where
  | empty : Reachable Registry.empty
  | register (r : Nat) (ctx : Int) {g : Registry} :
      Reachable g → Reachable (contextRegister r ctx g)
  | unregister (r : Nat) {g : Registry} :
      Reachable g → Reachable (contextUnregister r g)

/-! ## GPU objects -/

/-- Data members of a `GPUObject`: the handle `mID` (0 means not created),
the flag `mResubmit`, and `sub`, the data members of the concrete subclass. -/
structure ObjState (σ : Type) where
  mID : Nat
  mResubmit : Bool
  sub : σ

/-- The pure virtual member functions `onCreate` and `onDestroy`, supplied by
the concrete subclass. They run on the object they belong to. -/
structure Hooks (σ : Type) where
  onCreate : ObjState σ → ObjState σ
  onDestroy : ObjState σ → ObjState σ

/-- What the log records: entry into `create()` / `destroy()`, and each
invocation of a hook. -/
inductive Event where
  | createCall
  | destroyCall
  | onCreate
  | onDestroy
  deriving DecidableEq, Repr

/-- Hook invocations, as opposed to calls of `create` / `destroy`. -/
def Event.isHook : Event → Bool
  | .onCreate => true
  | .onDestroy => true
  | _ => false

/-- A `GPUObject` together with the chronological log of what was done to
it. -/
structure GPUObject (σ : Type) where
  st : ObjState σ
  log : List Event

namespace GPUObject

variable {σ : Type}

/-- Append one entry to the log. -/
def record (o : GPUObject σ) (e : Event) : GPUObject σ :=
  { o with log := o.log ++ [e] }

/-- Subsequence of hook invocations of the log. -/
def hookLog (o : GPUObject σ) : List Event := o.log.filter Event.isHook

/-- Member initialisers `mID(0), mResubmit(false)` of both constructors. -/
def init (sub : σ) : GPUObject σ :=
  { st := { mID := 0, mResubmit := false, sub := sub }, log := [] }

/-- The accessor `id()`. -/
def id (o : GPUObject σ) : Nat := o.st.mID

/-- Embedding of `GPUObject::created`. -/
def created (o : GPUObject σ) : Bool := o.id != 0

/-- Invoke a hook: it is recorded and runs on the data members. -/
def runHook (o : GPUObject σ) (e : Event) (f : ObjState σ → ObjState σ) :
    GPUObject σ :=
  { st := f o.st, log := o.log ++ [e] }

/-- Embedding of `GPUObject::destroy`. -/
def destroy (H : Hooks σ) (o : GPUObject σ) : GPUObject σ :=
  let o0 := o.record .destroyCall
  let o1 := if o0.created then o0.runHook .onDestroy H.onDestroy else o0
  { o1 with st := { o1.st with mID := 0 } }

/-- Embedding of `GPUObject::create`. -/
def create (H : Hooks σ) (o : GPUObject σ) : GPUObject σ :=
  let o0 := o.record .createCall
  let o1 := if o0.created then destroy H o0 else o0
  o1.runHook .onCreate H.onCreate

/-- Embedding of `GPUObject::validate`. -/
def validate (H : Hooks σ) (o : GPUObject σ) : GPUObject σ :=
  let o1 :=
    if o.st.mResubmit then
      let d := destroy H o
      { d with st := { d.st with mResubmit := false } }
    else o
  if !o1.created then create H o1 else o1

/-- Embedding of `GPUObject::invalidate`. -/
def invalidate (o : GPUObject σ) : GPUObject σ :=
  { o with st := { o.st with mResubmit := true } }

end GPUObject

/-! ## The program state -/

/-- The registry and the objects in memory, by address. -/
structure World (σ : Type) where
  reg : Registry
  objs : Nat → GPUObject σ

/-- A `GPUContext`, as far as the resource functions read it. -/
structure GPUContext where
  mContextID : Int

/-- The accessor `contextID()`. -/
def GPUContext.contextID (c : GPUContext) : Int := c.mContextID

namespace World

variable {σ : Type}

/-- Store `o` at address `r`. -/
def setObj (w : World σ) (r : Nat) (o : GPUObject σ) : World σ :=
  { w with objs := fun j => if j = r then o else w.objs j }

/-- Call a member function of the object at address `r`. -/
def call (w : World σ) (r : Nat) (f : GPUObject σ → GPUObject σ) : World σ :=
  w.setObj r (f (w.objs r))

/-- Embedding of the constructor `GPUObject::GPUObject(int ctx)` run at
address `r`; `sub` is what the subclass constructor puts in its own members. -/
def construct (r : Nat) (ctx : Int) (sub : σ) (w : World σ) : World σ :=
  let w1 := w.setObj r (GPUObject.init sub)
  { w1 with reg := contextRegister r ctx w1.reg }

/-- Embedding of the constructor `GPUObject::GPUObject(GPUContext& ctx)`. -/
def constructIn (r : Nat) (ctx : GPUContext) (sub : σ) (w : World σ) : World σ :=
  let w1 := w.setObj r (GPUObject.init sub)
  { w1 with reg := contextRegister r ctx.contextID w1.reg }

/-- The call `invalidate()` on the object at address `r`. -/
def invalidate (r : Nat) (w : World σ) : World σ :=
  w.call r GPUObject.invalidate

end World

/-- Embedding of `GPUContext::contextCreate`; `vt r` are the hooks of the
object at address `r`. -/
def GPUContext.contextCreate {σ : Type} (vt : Nat → Hooks σ) (c : GPUContext)
    (w : World σ) : World σ :=
  match w.reg.contexts c.mContextID with
  | none => w
  | some ctx_set => ctx_set.foldl (fun w r => w.call r (GPUObject.create (vt r))) w

/-- Embedding of `GPUContext::contextDestroy`. -/
def GPUContext.contextDestroy {σ : Type} (vt : Nat → Hooks σ) (c : GPUContext)
    (w : World σ) : World σ :=
  match w.reg.contexts c.mContextID with
  | none => w
  | some ctx_set => ctx_set.foldl (fun w r => w.call r (GPUObject.destroy (vt r))) w

/-- Representation invariant of the registry: every set is strictly ascending
and the two maps agree on who is registered where. -/
def RegInv (g : Registry) : Prop :=
  (∀ c s, g.contexts c = some s → s.Pairwise (· < ·)) ∧
  (∀ c r, inSet g c r ↔ g.resources r = some c)

/-! ## Concrete instances -/

/-- Hooks of a sample resource type whose subclass data counts the names
generated so far: `onCreate` takes the next name as handle, `onDestroy`
releases the name and leaves the data members alone. -/
def sampleHooks : Hooks Nat :=
  { onCreate := fun s => { s with mID := s.sub + 1, sub := s.sub + 1 },
    onDestroy := fun s => s }

/-- Every object of the sample world has the sample hooks. -/
def sampleVt : Nat → Hooks Nat := fun _ => sampleHooks

/-- Calls that register resource 10 to context 1 and resources 20, 21, 22 to
context 2. -/
def sampleOps : List RegOp :=
  [.register 10 1, .register 20 2, .register 21 2, .register 22 2]

/-- A created object with handle `h`, no resubmit pending. -/
def sampleObj (h : Nat) : GPUObject Nat :=
  { st := { mID := h, mResubmit := false, sub := h }, log := [] }

/-- Two context ids in use: resource 10 is registered to id 1, resources 20,
21 and 22 to id 2, and all of them are created. -/
def sampleWorld : World Nat :=
  { reg := runOps sampleOps Registry.empty,
    objs := fun r => sampleObj (r + 1) }

/-! ## Destruction of a GPU object -/

/-- Embedding of the destructor `GPUObject::~GPUObject` run on the object at
address `r`: its body is the single call `contextUnregister()`. -/
def World.destruct {σ : Type} (r : Nat) (w : World σ) : World σ :=
  { w with reg := contextUnregister r w.reg }

/-! ## Rendering contexts -/

/-- Embedding of `GPUContext::defaultContextID`; 0 is reserved for an invalid
context. -/
def GPUContext.defaultContextID : Int := 1

/-- Largest value of the type `int` of context ids. -/
def INT_MAX : Int := 2147483647

/-- The global state read and written by the `GPUContext` member functions:
the GPU objects and their registry, the context objects in memory by address,
the map `getContexts()` from context id to context object, and the static
counter `g_next_context_id`. The field `live` is ghost state: the addresses
at which a context has been constructed and not yet destructed. -/
structure Sys (σ : Type) where
  world : World σ
  ctxs : Nat → GPUContext
  live : Nat → Bool
  table : Int → Option Nat
  next : Int

/-- The state before any context is constructed, over the world `w`:
`getContexts()` is empty and the counter is initialised to
`defaultContextID()`. -/
def Sys.init {σ : Type} (w : World σ) : Sys σ :=
  { world := w,
    ctxs := fun _ => { mContextID := 0 },
    live := fun _ => false,
    table := fun _ => none,
    next := GPUContext.defaultContextID }

/-- The identifier reported by the context object at address `a`. -/
def Sys.idOf {σ : Type} (s : Sys σ) (a : Nat) : Int := (s.ctxs a).contextID

/-- Store a new `mContextID` in the context object at address `a`. -/
def Sys.setID {σ : Type} (s : Sys σ) (a : Nat) (v : Int) : Sys σ :=
  { s with ctxs := fun j => if j = a then { mContextID := v } else s.ctxs j }

/-- Embedding of `getNextContextID`: the value of the counter is returned and
the counter is incremented. Incrementing an `int` that holds `INT_MAX` is
signed overflow, for which the language defines no behaviour: there is no
result then. -/
def getNextContextID {σ : Type} (s : Sys σ) : Option (Int × Sys σ) :=
  if s.next < INT_MAX then some (s.next, { s with next := s.next + 1 }) else none

/-- Embedding of the constructor `GPUContext::GPUContext` run at address `a`. -/
def GPUContext.construct {σ : Type} (a : Nat) (s : Sys σ) : Option (Sys σ) :=
  match getNextContextID s with
  | none => none
  | some (v, s1) =>
    let s2 := s1.setID a v
    some { s2 with table := mapSet s2.table (s2.idOf a) a,
                   live := fun j => if j = a then true else s2.live j }

/-- Embedding of the destructor `GPUContext::~GPUContext` run on the context
at address `a`. -/
def GPUContext.destruct {σ : Type} (vt : Nat → Hooks σ) (a : Nat) (s : Sys σ) :
    Sys σ :=
  let s1 := { s with world := (s.ctxs a).contextDestroy vt s.world }
  let table :=
    match s1.table (s1.idOf a) with
    | some _ => mapErase s1.table (s1.idOf a)
    | none => s1.table
  { s1 with table := table, live := fun j => if j = a then false else s1.live j }

/-- Embedding of `GPUContext::makeDefaultContext` called on the context at
address `a`. -/
def GPUContext.makeDefaultContext {σ : Type} (a : Nat) (s : Sys σ) : Sys σ :=
  let myID := s.idOf a
  let dfID := GPUContext.defaultContextID
  if myID ≠ dfID then
    let s1 :=
      match s.table dfID with
      | some other =>
        let t := s.setID other myID
        { t with table := mapSet t.table myID other }
      | none => s
    let s2 := s1.setID a dfID
    { s2 with table := mapSet s2.table dfID a }
  else s

/-- One operation on contexts. -/
inductive CtxOp where
  | construct (a : Nat)
  | destruct (a : Nat)
  | makeDefault (a : Nat)
  deriving DecidableEq

/-- Constructions among the operations. -/
def CtxOp.isConstruct : CtxOp → Bool
  | .construct _ => true
  | _ => false

/-- Effect of one operation. A constructor runs at an address where no
context is alive, a destructor or member function on a context that is
alive; otherwise, and when the counter overflows, there is no result. -/
def CtxOp.step {σ : Type} (vt : Nat → Hooks σ) : CtxOp → Sys σ → Option (Sys σ)
  | .construct a, s => if s.live a then none else GPUContext.construct a s
  | .destruct a, s => if s.live a then some (GPUContext.destruct vt a s) else none
  | .makeDefault a, s =>
    if s.live a then some (GPUContext.makeDefaultContext a s) else none

/-- Effect of a finite sequence of operations, first operation first. -/
def runCtx {σ : Type} (vt : Nat → Hooks σ) : List CtxOp → Sys σ → Option (Sys σ)
  | [], s => some s
  | op :: ops, s => (op.step vt s).bind (runCtx vt ops)

/-- Invariant of the context table in the states reached by constructions,
destructions and `makeDefaultContext` calls. -/
def CtxInv {σ : Type} (s : Sys σ) : Prop :=
  1 ≤ s.next ∧
  (∀ a, s.live a = true → 1 ≤ s.idOf a ∧ s.idOf a < s.next) ∧
  (∀ a b, s.live a = true → s.live b = true → s.idOf a = s.idOf b → a = b) ∧
  (∀ a, s.table GPUContext.defaultContextID = some a ↔
    (s.live a = true ∧ s.idOf a = GPUContext.defaultContextID))

/-- Operations that construct context A at address 0 and context B at address
1, destruct A, make B the default context and destruct B. -/
def staleOps : List CtxOp :=
  [.construct 0, .construct 1, .destruct 0, .makeDefault 1, .destruct 1]

/-! ## The graphics domain -/

/-- What a graphics domain does, one entry per call made by
`GraphicsDomain::start` and `GraphicsDomain::stop`, and per sub-domain
reached by a pass over the sub-domain list. -/
inductive DomainEvent where
  | initializeSubdomains (pre : Bool)
  | subInitialize (id : Nat)
  | tickSubdomains (pre : Bool)
  | subTick (id : Nat)
  | cleanupSubdomains (pre : Bool)
  | subCleanup (id : Nat)
  | startFPS
  | spu
  | appCreate
  | preOnCreate
  | onCreate
  | callStartCallbacks
  | shouldQuit
  | onNewFrame
  | lock
  | makeCurrent
  | preOnDraw
  | onDraw
  | postOnDraw
  | refresh
  | unlock
  | tickFPS
  | callStopCallbacks
  | onExit
  | postOnExit
  | appDestroy
  deriving DecidableEq, Repr

/-- A synchronous sub-domain of the graphics domain: its identity, the pass
it belongs to (`pre`), and what its three member functions answer. -/
structure SubDomain where
  id : Nat
  pre : Bool
  initOk : Bool
  tickOk : Bool
  cleanupOk : Bool
  deriving DecidableEq, Repr

/-- What surrounds the graphics domain: its sub-domain list, the outcome of
`app.create`, and the answer of the `i`-th call of `app.shouldQuit`
(counted from 0). -/
structure Env where
  subs : List SubDomain
  createOk : Bool
  quit : Nat → Bool

/-- State of a `GraphicsDomain`: the member `mRunning`, and as ghost state
the chronological trace of what it did and the number of `shouldQuit` calls
made so far. -/
structure GraphicsDomain where
  mRunning : Bool
  trace : List DomainEvent
  polls : Nat

namespace GraphicsDomain

/-- Append one entry to the trace. -/
def emit (d : GraphicsDomain) (e : DomainEvent) : GraphicsDomain :=
  { d with trace := d.trace ++ [e] }

/-- Modelled from the spec: the three passes over the sub-domain list of
`ComputationDomain` (`initializeSubdomains`, `tickSubdomains`,
`cleanupSubdomains`; al_ComputationDomain.hpp is not among the sources). A
pass visits the sub-domains of the requested pass in list order, calls the
member function on each of them, and accumulates the answers with `&=`, so
that a failure does not stop the pass. -/
def subdomainPass (ev : Nat → DomainEvent) (ok : SubDomain → Bool) (pre : Bool) :
    List SubDomain → Bool × GraphicsDomain → Bool × GraphicsDomain
  | [], acc => acc
  | sd :: rest, (ret, d) =>
    if sd.pre = pre then subdomainPass ev ok pre rest (ret && ok sd, d.emit (ev sd.id))
    else subdomainPass ev ok pre rest (ret, d)

/-- Modelled from the spec: `ComputationDomain::initializeSubdomains`
(al_ComputationDomain.hpp is not among the sources), the aggregate boolean
AND across the initialisations of all sub-domains of the pass. -/
def initializeSubdomains (env : Env) (pre : Bool) (d : GraphicsDomain) :
    Bool × GraphicsDomain :=
  subdomainPass .subInitialize SubDomain.initOk pre env.subs
    (true, d.emit (.initializeSubdomains pre))

/-- Modelled from the spec: `ComputationDomain::tickSubdomains`
(al_ComputationDomain.hpp is not among the sources), the synchronous
sub-domains of the pass ticked inline. -/
def tickSubdomains (env : Env) (pre : Bool) (d : GraphicsDomain) :
    Bool × GraphicsDomain :=
  subdomainPass .subTick SubDomain.tickOk pre env.subs
    (true, d.emit (.tickSubdomains pre))

/-- Modelled from the spec: `ComputationDomain::cleanupSubdomains`
(al_ComputationDomain.hpp is not among the sources). -/
def cleanupSubdomains (env : Env) (pre : Bool) (d : GraphicsDomain) :
    Bool × GraphicsDomain :=
  subdomainPass .subCleanup SubDomain.cleanupOk pre env.subs
    (true, d.emit (.cleanupSubdomains pre))

/-- The call `app.create(app.is_verbose)`; `WindowApp` is not among the
sources, the outcome of the creation is given by the environment. -/
def appCreate (env : Env) (d : GraphicsDomain) : Bool × GraphicsDomain :=
  (env.createOk, d.emit .appCreate)

/-- The call `app.shouldQuit()`. -/
def shouldQuit (env : Env) (d : GraphicsDomain) : Bool × GraphicsDomain :=
  (env.quit d.polls, { d.emit .shouldQuit with polls := d.polls + 1 })

/-- Body of the `while` loop of `GraphicsDomain::start`. -/
def frame (env : Env) (d : GraphicsDomain) : GraphicsDomain :=
  let d := d.emit .onNewFrame
  let d := d.emit .lock
  let d := (tickSubdomains env true d).2
  let d := d.emit .makeCurrent
  let d := d.emit .preOnDraw
  let d := d.emit .onDraw
  let d := d.emit .postOnDraw
  let d := d.emit .refresh
  let d := (tickSubdomains env false d).2
  let d := d.emit .unlock
  d.emit .tickFPS

/-- The loop `while (!app.shouldQuit()) { ... }` of `GraphicsDomain::start`,
run for at most `fuel` examinations of the quit flag; no result when the
fuel does not suffice. -/
def mainLoop (env : Env) : Nat → GraphicsDomain → Option GraphicsDomain
  | 0, _ => none
  | fuel + 1, d =>
    let (q, d1) := shouldQuit env d
    if !q then mainLoop env fuel (frame env d1) else some d1

/-- Embedding of `GraphicsDomain::stop`. -/
def stop (env : Env) (d : GraphicsDomain) : Bool × GraphicsDomain :=
  let ret := true
  let d := d.emit .callStopCallbacks
  let (r1, d) := cleanupSubdomains env true d
  let ret := ret && r1
  let d := d.emit .onExit
  let d := d.emit .postOnExit
  let d := d.emit .appDestroy
  let (r2, d) := cleanupSubdomains env false d
  let ret := ret && r2
  (ret, { d with mRunning := false })

/-- Embedding of `GraphicsDomain::start`; `fuel` bounds the number of
examinations of the quit flag. -/
def start (env : Env) (fuel : Nat) (d : GraphicsDomain) :
    Option (Bool × GraphicsDomain) :=
  if !d.mRunning then
    let d := { d with mRunning := true }
    let ret := true
    let (r1, d) := initializeSubdomains env true d
    let ret := ret && r1
    let d := d.emit .startFPS
    let d := d.emit .spu
    let (_, d) := appCreate env d
    let (r2, d) := initializeSubdomains env false d
    let ret := ret && r2
    let d := d.emit .preOnCreate
    let d := d.emit .onCreate
    let d := d.emit .callStartCallbacks
    match mainLoop env fuel d with
    | none => none
    | some d =>
      let (r3, d) := stop env d
      let ret := ret && r3
      some (ret, d)
  else some (true, d)

/-- Entries recorded by a pass over the sub-domain list, in closed form. -/
def passEvents (ev : Nat → DomainEvent) (pre : Bool) (subs : List SubDomain) :
    List DomainEvent :=
  (subs.filter (fun sd => sd.pre = pre)).map (fun sd => ev sd.id)

/-- Answer of a pass over the sub-domain list, in closed form. -/
def passResult (ok : SubDomain → Bool) (pre : Bool) (subs : List SubDomain) : Bool :=
  (subs.filter (fun sd => sd.pre = pre)).all ok

/-- The entries of one frame body in the order the claim on the main loop
gives them, with the calls it leaves out (`onNewFrame` first, `refresh`
after the post-draw step, `tickFPS` last) at their place. -/
def frameOrder (env : Env) : List DomainEvent :=
  [.onNewFrame, .lock, .tickSubdomains true] ++ passEvents .subTick true env.subs
    ++ [.makeCurrent, .preOnDraw, .onDraw, .postOnDraw, .refresh,
        .tickSubdomains false] ++ passEvents .subTick false env.subs
    ++ [.unlock, .tickFPS]

/-- A domain that has not been started. -/
def fresh : GraphicsDomain := { mRunning := false, trace := [], polls := 0 }

end GraphicsDomain

/-- Two sub-domains: sub-domain 1 belongs to the pre pass and fails to
initialise, sub-domain 2 belongs to the post pass. Window creation succeeds.
The quit flag is clear at the first examination and set from the second. -/
def sampleEnv : Env :=
  { subs := [{ id := 1, pre := true, initOk := false, tickOk := true, cleanupOk := true },
             { id := 2, pre := false, initOk := true, tickOk := true, cleanupOk := true }],
    createOk := true,
    quit := fun i => decide (1 ≤ i) }

/-- The same two sub-domains, both answering success everywhere, and a window
creation that fails. -/
def failedCreateEnv : Env :=
  { subs := [{ id := 1, pre := true, initOk := true, tickOk := true, cleanupOk := true },
             { id := 2, pre := false, initOk := true, tickOk := true, cleanupOk := true }],
    createOk := false,
    quit := fun i => decide (1 ≤ i) }

/-! ## Runs of calls on GPU objects -/

/-- The call `contextRegister(ctx)` on the object at address `r`. -/
def World.contextRegister {σ : Type} (r : Nat) (ctx : Int) (w : World σ) : World σ :=
  { w with reg := al.contextRegister r ctx w.reg }

/-- The call `contextUnregister()` on the object at address `r`. -/
def World.contextUnregister {σ : Type} (r : Nat) (w : World σ) : World σ :=
  { w with reg := al.contextUnregister r w.reg }

/-- One step in the life of GPU objects: either constructor, a call of
`contextRegister` or `contextUnregister`, or the destructor. -/
inductive ObjOp (σ : Type) where
  | construct (r : Nat) (ctx : Int) (sub : σ)
  | constructIn (r : Nat) (ctx : GPUContext) (sub : σ)
  | register (r : Nat) (ctx : Int)
  | unregister (r : Nat)
  | destruct (r : Nat)

/-- Effect of one step. -/
def ObjOp.run {σ : Type} : ObjOp σ → World σ → World σ
  | .construct r ctx sub, w => World.construct r ctx sub w
  | .constructIn r ctx sub, w => World.constructIn r ctx sub w
  | .register r ctx, w => World.contextRegister r ctx w
  | .unregister r, w => World.contextUnregister r w
  | .destruct r, w => World.destruct r w

/-- Effect of a finite sequence of steps, first step first. -/
def runObjOps {σ : Type} (ops : List (ObjOp σ)) (w : World σ) : World σ :=
  ops.foldl (fun w op => op.run w) w

/-- The state before any GPU object exists: both registry maps are empty;
`mem` is what the memory holds. -/
def World.initial {σ : Type} (mem : Nat → GPUObject σ) : World σ :=
  { reg := Registry.empty, objs := mem }

/-- Steps that construct objects at addresses 5 and 6 for context 1,
re-register the first to context 2 and destruct the second. -/
def sampleObjOps : List (ObjOp Nat) :=
  [.construct 5 1 0, .constructIn 6 { mContextID := 1 } 0, .register 5 2, .destruct 6]

/-! ## Lemmas on the containers -/

theorem ResourceSet.mem_insert (r x : Nat) (s : ResourceSet) :
    x ∈ ResourceSet.insert r s ↔ x = r ∨ x ∈ s := by
  induction s with
  | nil => simp [ResourceSet.insert]
  | cons y ys ih =>
    unfold ResourceSet.insert
    split_ifs with h1 h2
    · simp
    · subst h2; simp
    · simp [ih]; tauto

theorem ResourceSet.insert_sorted (r : Nat) (s : ResourceSet)
    (hs : s.Pairwise (· < ·)) : (ResourceSet.insert r s).Pairwise (· < ·) := by
  induction s with
  | nil => simp [ResourceSet.insert]
  | cons y ys ih =>
    rw [List.pairwise_cons] at hs
    unfold ResourceSet.insert
    split_ifs with h1 h2
    · rw [List.pairwise_cons]
      refine ⟨?_, List.pairwise_cons.2 hs⟩
      intro a ha
      rcases List.mem_cons.1 ha with rfl | ha
      · exact h1
      · exact lt_trans h1 (hs.1 a ha)
    · exact List.pairwise_cons.2 hs
    · rw [List.pairwise_cons]
      refine ⟨?_, ih hs.2⟩
      intro a ha
      rcases (ResourceSet.mem_insert r a ys).1 ha with rfl | ha
      · omega
      · exact hs.1 a ha

theorem ResourceSet.find_iff (r : Nat) (s : ResourceSet) :
    ResourceSet.find r s = true ↔ r ∈ s := by
  simp [ResourceSet.find]

theorem ResourceSet.erase_of_not_mem (r : Nat) (s : ResourceSet) (h : r ∉ s) :
    ResourceSet.erase r s = s := by
  induction s with
  | nil => rfl
  | cons y ys ih =>
    simp only [List.mem_cons, not_or] at h
    unfold ResourceSet.erase
    rw [if_neg (fun e => h.1 e.symm), ih h.2]

theorem ResourceSet.mem_erase (r x : Nat) (s : ResourceSet)
    (hs : s.Pairwise (· < ·)) :
    x ∈ ResourceSet.erase r s ↔ x ≠ r ∧ x ∈ s := by
  induction s with
  | nil => simp [ResourceSet.erase]
  | cons y ys ih =>
    rw [List.pairwise_cons] at hs
    unfold ResourceSet.erase
    split_ifs with h1
    · subst h1
      constructor
      · intro hx
        exact ⟨Nat.ne_of_gt (hs.1 x hx), List.mem_cons_of_mem _ hx⟩
      · rintro ⟨hne, hx⟩
        rcases List.mem_cons.1 hx with h | h
        · exact absurd h hne
        · exact h
    · simp only [List.mem_cons, ih hs.2]
      constructor
      · rintro (h | h)
        · subst h; exact ⟨h1, Or.inl rfl⟩
        · exact ⟨h.1, Or.inr h.2⟩
      · rintro ⟨hne, h | h⟩
        · exact Or.inl h
        · exact Or.inr ⟨hne, h⟩

theorem ResourceSet.erase_sorted (r : Nat) (s : ResourceSet)
    (hs : s.Pairwise (· < ·)) : (ResourceSet.erase r s).Pairwise (· < ·) := by
  induction s with
  | nil => simp [ResourceSet.erase]
  | cons y ys ih =>
    rw [List.pairwise_cons] at hs
    unfold ResourceSet.erase
    split_ifs with h1
    · exact hs.2
    · rw [List.pairwise_cons]
      refine ⟨?_, ih hs.2⟩
      intro a ha
      exact hs.1 a (((ResourceSet.mem_erase r a ys hs.2).1 ha).2)

/-! ## Lemmas on the registry -/

theorem inSet_iff (g : Registry) (c : Int) (r : Nat) :
    inSet g c r ↔ ∃ s, g.contexts c = some s ∧ r ∈ s := by
  unfold inSet
  cases h : g.contexts c <;> simp

theorem unregister_of_none (r : Nat) (g : Registry) (h : g.resources r = none) :
    contextUnregister r g = g := by
  unfold contextUnregister
  rw [h]

theorem unregister_resources (r x : Nat) (g : Registry) :
    (contextUnregister r g).resources x = if x = r then none else g.resources x := by
  unfold contextUnregister
  cases h : g.resources r with
  | none =>
    by_cases hx : x = r
    · subst hx; simp [h]
    · simp [hx]
  | some c => simp [mapErase]

theorem unregister_contexts_registered (r : Nat) (g : Registry) (c : Int)
    (s : ResourceSet) (hr : g.resources r = some c) (hc : g.contexts c = some s)
    (hm : r ∈ s) :
    (contextUnregister r g).contexts = mapSet g.contexts c (ResourceSet.erase r s) := by
  unfold contextUnregister
  simp [hr, hc, (ResourceSet.find_iff r s).2 hm]

theorem unregister_inSet (r x : Nat) (c : Int) (g : Registry) (hg : RegInv g) :
    inSet (contextUnregister r g) c x ↔ x ≠ r ∧ inSet g c x := by
  cases hr : g.resources r with
  | none =>
    rw [unregister_of_none r g hr]
    constructor
    · intro h
      refine ⟨?_, h⟩
      rintro rfl
      rw [(hg.2 c x).1 h] at hr
      exact Option.noConfusion hr
    · exact fun h => h.2
  | some c0 =>
    obtain ⟨s, hs, hm⟩ := (inSet_iff g c0 r).1 ((hg.2 c0 r).2 hr)
    have hctx := unregister_contexts_registered r g c0 s hr hs hm
    by_cases hc : c = c0
    · subst hc
      rw [inSet_iff, inSet_iff, hctx]
      simp only [mapSet, if_true, Option.some.injEq, exists_eq_left', hs]
      exact ResourceSet.mem_erase r x s (hg.1 c s hs)
    · have e : (contextUnregister r g).contexts c = g.contexts c := by
        rw [hctx]; simp [mapSet, hc]
      have e2 : inSet (contextUnregister r g) c x ↔ inSet g c x := by
        unfold inSet; rw [e]
      rw [e2]
      constructor
      · intro h
        refine ⟨?_, h⟩
        rintro rfl
        rw [(hg.2 c x).1 h] at hr
        exact hc (Option.some.inj hr)
      · exact fun h => h.2

theorem unregister_sorted (r : Nat) (g : Registry) (hg : RegInv g) (c : Int)
    (s : ResourceSet) (h : (contextUnregister r g).contexts c = some s) :
    s.Pairwise (· < ·) := by
  cases hr : g.resources r with
  | none =>
    rw [unregister_of_none r g hr] at h
    exact hg.1 c s h
  | some c0 =>
    obtain ⟨s0, hs0, hm⟩ := (inSet_iff g c0 r).1 ((hg.2 c0 r).2 hr)
    rw [unregister_contexts_registered r g c0 s0 hr hs0 hm] at h
    unfold mapSet at h
    split_ifs at h with hc
    · cases h
      exact ResourceSet.erase_sorted r s0 (hg.1 c0 s0 hs0)
    · exact hg.1 c s h

theorem unregister_keys (r : Nat) (g : Registry) (c : Int) :
    (contextUnregister r g).contexts c = none ↔ g.contexts c = none := by
  unfold contextUnregister
  cases hr : g.resources r with
  | none => simp
  | some c0 =>
    cases hs : g.contexts c0 with
    | none => simp [hs]
    | some s =>
      by_cases hf : ResourceSet.find r s = true
      · by_cases hc : c = c0
        · subst hc; simp [hf, mapSet, hs]
        · simp [hf, mapSet, hc, hs]
      · simp [hf, hs]

theorem RegInv.unregister (r : Nat) {g : Registry} (hg : RegInv g) :
    RegInv (contextUnregister r g) := by
  refine ⟨unregister_sorted r g hg, ?_⟩
  intro c x
  rw [unregister_inSet r x c g hg, unregister_resources, hg.2 c x]
  by_cases hx : x = r
  · simp [hx]
  · simp [hx]

theorem register_resources (r x : Nat) (ctx : Int) (g : Registry) :
    (contextRegister r ctx g).resources x
      = if x = r then some ctx else g.resources x := by
  unfold contextRegister
  simp only [mapSet, unregister_resources]
  by_cases hx : x = r
  · simp [hx]
  · simp [hx]

theorem register_inSet (r x : Nat) (ctx c : Int) (g : Registry) (hg : RegInv g) :
    inSet (contextRegister r ctx g) c x
      ↔ (x = r ∧ c = ctx) ∨ (x ≠ r ∧ inSet g c x) := by
  have hu := unregister_inSet r x c g hg
  unfold contextRegister
  by_cases hc : c = ctx
  · subst hc
    rw [inSet_iff]
    simp only [mapSet, if_true, Option.some.injEq, exists_eq_left',
      ResourceSet.mem_insert]
    have : x ∈ ((contextUnregister r g).contexts c).getD [] ↔
        inSet (contextUnregister r g) c x := by
      unfold inSet
      cases (contextUnregister r g).contexts c <;> simp
    rw [this, hu]
    tauto
  · have : inSet
        { contexts := mapSet (contextUnregister r g).contexts ctx
            (ResourceSet.insert r (((contextUnregister r g).contexts ctx).getD [])),
          resources := mapSet (contextUnregister r g).resources r ctx } c x
        ↔ inSet (contextUnregister r g) c x := by
      unfold inSet
      simp [mapSet, hc]
    rw [this, hu]
    simp [hc]

theorem RegInv.register (r : Nat) (ctx : Int) {g : Registry} (hg : RegInv g) :
    RegInv (contextRegister r ctx g) := by
  refine ⟨?_, ?_⟩
  · intro c s h
    unfold contextRegister at h
    simp only [mapSet] at h
    split_ifs at h with hc
    · cases h
      apply ResourceSet.insert_sorted
      cases hu : (contextUnregister r g).contexts ctx with
      | none => simp
      | some s0 => exact unregister_sorted r g hg ctx s0 hu
    · exact unregister_sorted r g hg c s h
  · intro c x
    rw [register_inSet r x ctx c g hg, register_resources, hg.2 c x]
    by_cases hx : x = r
    · simp [hx]; exact eq_comm
    · simp [hx]

theorem RegInv.empty : RegInv Registry.empty := by
  refine ⟨?_, ?_⟩
  · intro c s h; simp [Registry.empty] at h
  · intro c r; simp [inSet, Registry.empty]

theorem Reachable.inv {g : Registry} (h : Reachable g) : RegInv g := by
  induction h with
  | empty => exact RegInv.empty
  | register r ctx _ ih => exact ih.register r ctx
  | unregister r _ ih => exact ih.unregister r

theorem runOps_reachable (ops : List RegOp) :
    ∀ g, Reachable g → Reachable (runOps ops g) := by
  induction ops with
  | nil => intro g h; exact h
  | cons op ops ih =>
    intro g h
    unfold runOps
    rw [List.foldl_cons]
    apply ih
    cases op with
    | register r ctx => exact Reachable.register r ctx h
    | unregister r => exact Reachable.unregister r h

/-! ## Lemmas on objects and on the loops over a resource set -/

theorem GPUObject.record_created {σ : Type} (o : GPUObject σ) (e : Event) :
    (o.record e).created = o.created := rfl

theorem GPUObject.destroy_created_false {σ : Type} (H : Hooks σ) (o : GPUObject σ) :
    (GPUObject.destroy H o).created = false := by
  simp [GPUObject.destroy, GPUObject.created, GPUObject.id]

theorem GPUObject.destroy_log {σ : Type} (H : Hooks σ) (o : GPUObject σ) :
    (GPUObject.destroy H o).log
      = o.log ++ Event.destroyCall :: (if o.created then [Event.onDestroy] else []) := by
  unfold GPUObject.destroy
  simp only [GPUObject.record_created]
  by_cases h : o.created = true <;> simp [h, GPUObject.runHook, GPUObject.record]

theorem GPUObject.destroy_st {σ : Type} (H : Hooks σ) (o : GPUObject σ) :
    (GPUObject.destroy H o).st
      = { (if o.created then H.onDestroy o.st else o.st) with mID := 0 } := by
  unfold GPUObject.destroy
  simp only [GPUObject.record_created]
  by_cases h : o.created = true <;> simp [h, GPUObject.runHook, GPUObject.record]

theorem GPUObject.create_of_not_created {σ : Type} (H : Hooks σ) (o : GPUObject σ)
    (h : o.created = false) :
    GPUObject.create H o
      = { st := H.onCreate o.st,
          log := o.log ++ [Event.createCall, Event.onCreate] } := by
  unfold GPUObject.create
  simp only [GPUObject.record_created, h]
  simp [GPUObject.runHook, GPUObject.record]

theorem GPUObject.create_of_created {σ : Type} (H : Hooks σ) (o : GPUObject σ)
    (h : o.created = true) :
    GPUObject.create H o
      = { st := H.onCreate { H.onDestroy o.st with mID := 0 },
          log := o.log ++ [Event.createCall, Event.destroyCall, Event.onDestroy,
            Event.onCreate] } := by
  unfold GPUObject.create
  simp only [GPUObject.record_created, h, if_true, GPUObject.runHook,
    GPUObject.destroy_st, GPUObject.destroy_log]
  simp [GPUObject.record]

theorem World.foldl_call_reg {σ : Type} (f : Nat → GPUObject σ → GPUObject σ)
    (s : List Nat) : ∀ w : World σ,
    (s.foldl (fun w r => w.call r (f r)) w).reg = w.reg := by
  induction s with
  | nil => intro w; rfl
  | cons y ys ih => intro w; rw [List.foldl_cons, ih]; rfl

theorem World.foldl_call_of_not_mem {σ : Type} (f : Nat → GPUObject σ → GPUObject σ)
    (x : Nat) (s : List Nat) : ∀ w : World σ, x ∉ s →
    (s.foldl (fun w r => w.call r (f r)) w).objs x = w.objs x := by
  induction s with
  | nil => intro w _; rfl
  | cons y ys ih =>
    intro w hx
    simp only [List.mem_cons, not_or] at hx
    rw [List.foldl_cons, ih _ hx.2]
    simp [World.call, World.setObj, hx.1]

theorem World.foldl_call_of_mem {σ : Type} (f : Nat → GPUObject σ → GPUObject σ)
    (x : Nat) (s : List Nat) : ∀ w : World σ, s.Nodup → x ∈ s →
    (s.foldl (fun w r => w.call r (f r)) w).objs x = f x (w.objs x) := by
  induction s with
  | nil => intro w _ hx; simp at hx
  | cons y ys ih =>
    intro w hnd hx
    rw [List.nodup_cons] at hnd
    rw [List.foldl_cons]
    by_cases hxy : x = y
    · subst hxy
      rw [World.foldl_call_of_not_mem f x ys _ hnd.1]
      simp [World.call, World.setObj]
    · have hx' : x ∈ ys := by
        rcases List.mem_cons.1 hx with h | h
        · exact absurd h hxy
        · exact h
      rw [ih _ hnd.2 hx']
      simp [World.call, World.setObj, hxy]

theorem RegInv.nodup {g : Registry} (hg : RegInv g) (c : Int) (s : ResourceSet)
    (hs : g.contexts c = some s) : s.Nodup :=
  (hg.1 c s hs).imp (fun h => Nat.ne_of_lt h)

theorem contextDestroy_reg {σ : Type} (vt : Nat → Hooks σ) (c : GPUContext)
    (w : World σ) : (c.contextDestroy vt w).reg = w.reg := by
  unfold GPUContext.contextDestroy
  cases h : w.reg.contexts c.mContextID with
  | none => rfl
  | some s => exact World.foldl_call_reg _ s w

theorem contextCreate_reg {σ : Type} (vt : Nat → Hooks σ) (c : GPUContext)
    (w : World σ) : (c.contextCreate vt w).reg = w.reg := by
  unfold GPUContext.contextCreate
  cases h : w.reg.contexts c.mContextID with
  | none => rfl
  | some s => exact World.foldl_call_reg _ s w

theorem contextDestroy_objs_of_mem {σ : Type} (vt : Nat → Hooks σ) (c : GPUContext)
    (w : World σ) (hw : RegInv w.reg) (r : Nat) (hr : inSet w.reg c.mContextID r) :
    (c.contextDestroy vt w).objs r = GPUObject.destroy (vt r) (w.objs r) := by
  obtain ⟨s, hs, hm⟩ := (inSet_iff _ _ _).1 hr
  unfold GPUContext.contextDestroy
  rw [hs]
  exact World.foldl_call_of_mem _ r s w (hw.nodup _ s hs) hm

theorem contextDestroy_objs_of_not_mem {σ : Type} (vt : Nat → Hooks σ)
    (c : GPUContext) (w : World σ) (r : Nat) (hr : ¬ inSet w.reg c.mContextID r) :
    (c.contextDestroy vt w).objs r = w.objs r := by
  unfold GPUContext.contextDestroy
  cases hs : w.reg.contexts c.mContextID with
  | none => rfl
  | some s =>
    have hm : r ∉ s := fun hm => hr ((inSet_iff _ _ _).2 ⟨s, hs, hm⟩)
    exact World.foldl_call_of_not_mem _ r s w hm

theorem contextCreate_objs_of_mem {σ : Type} (vt : Nat → Hooks σ) (c : GPUContext)
    (w : World σ) (hw : RegInv w.reg) (r : Nat) (hr : inSet w.reg c.mContextID r) :
    (c.contextCreate vt w).objs r = GPUObject.create (vt r) (w.objs r) := by
  obtain ⟨s, hs, hm⟩ := (inSet_iff _ _ _).1 hr
  unfold GPUContext.contextCreate
  rw [hs]
  exact World.foldl_call_of_mem _ r s w (hw.nodup _ s hs) hm

theorem contextCreate_objs_of_not_mem {σ : Type} (vt : Nat → Hooks σ)
    (c : GPUContext) (w : World σ) (r : Nat) (hr : ¬ inSet w.reg c.mContextID r) :
    (c.contextCreate vt w).objs r = w.objs r := by
  unfold GPUContext.contextCreate
  cases hs : w.reg.contexts c.mContextID with
  | none => rfl
  | some s =>
    have hm : r ∉ s := fun hm => hr ((inSet_iff _ _ _).2 ⟨s, hs, hm⟩)
    exact World.foldl_call_of_not_mem _ r s w hm

/-! ## Registration -/

/-- C1: in every registry state the program can reach, for every resource `r`
and every context id `c` (no live context is needed), after
`contextRegister(r, c)`, and equally after either `GPUObject` constructor run
at `r` with `c`, `r` is an element of the set mapped to `c`, the reverse map
sends `r` to `c`, and `r` is an element of no other context's set. -/
theorem contextRegister_single_membership {σ : Type} (w : World σ)
    (hw : Reachable w.reg) (r : Nat) (c : Int) (sub : σ) (g : Registry)
    (hg : g = contextRegister r c w.reg ∨ g = (World.construct r c sub w).reg ∨
      g = (World.constructIn r { mContextID := c } sub w).reg) :
    inSet g c r ∧ g.resources r = some c ∧ ∀ c', inSet g c' r → c' = c := by
  have e : g = contextRegister r c w.reg := by
    rcases hg with h | h | h <;> exact h
  subst e
  have hi := fun c' => register_inSet r r c c' w.reg hw.inv
  refine ⟨(hi c).2 (Or.inl ⟨rfl, rfl⟩), ?_, ?_⟩
  · rw [register_resources]; simp
  · intro c' h
    rcases (hi c').1 h with h | h
    · exact h.2
    · exact absurd rfl h.1

/-- Witness of C1: resource 20, registered to context 2 in the sample world,
is constructed anew at the same address for context 7. -/
theorem contextRegister_single_membership_witness :
    inSet (World.construct 20 7 0 sampleWorld).reg 7 20 ∧
    (World.construct 20 7 0 sampleWorld).reg.resources 20 = some 7 ∧
    ∀ c', inSet (World.construct 20 7 0 sampleWorld).reg c' 20 → c' = 7 :=
  contextRegister_single_membership sampleWorld
    (runOps_reachable sampleOps _ Reachable.empty) 20 7 0 _ (Or.inr (Or.inl rfl))

/-- C2: starting from the empty registry, after every finite sequence of
`contextRegister` / `contextUnregister` calls, a resource that is an element
of the sets of two context ids has these two ids equal, and it occurs only
once in a set: it is in one set or in none, never in two. -/
theorem register_unregister_at_most_one_context (ops : List RegOp) (r : Nat)
    (c1 c2 : Int) (h1 : inSet (runOps ops Registry.empty) c1 r)
    (h2 : inSet (runOps ops Registry.empty) c2 r) :
    c1 = c2 ∧
    ∀ s, (runOps ops Registry.empty).contexts c1 = some s → s.count r = 1 := by
  have hinv := (runOps_reachable ops _ Reachable.empty).inv
  have e1 := (hinv.2 c1 r).1 h1
  have e2 := (hinv.2 c2 r).1 h2
  refine ⟨Option.some.inj (e1.symm.trans e2), ?_⟩
  intro s hs
  have hm : r ∈ s := by
    obtain ⟨s', hs', hm⟩ := (inSet_iff _ c1 r).1 h1
    rw [hs] at hs'
    cases hs'
    exact hm
  have hnd : s.Nodup := (hinv.1 c1 s hs).imp (fun h => Nat.ne_of_lt h)
  exact List.count_eq_one_of_mem hnd hm

/-- Witness of C2: resource 5 is registered to context 1, moved to context 2,
and another resource is unregistered. -/
theorem register_unregister_at_most_one_context_witness :
    inSet (runOps [.register 5 1, .register 5 2, .unregister 7] Registry.empty) 2 5 ∧
    ¬ inSet (runOps [.register 5 1, .register 5 2, .unregister 7] Registry.empty) 1 5 ∧
    ((2 : Int) = 2 ∧
      ∀ s, (runOps [.register 5 1, .register 5 2, .unregister 7]
        Registry.empty).contexts 2 = some s → s.count 5 = 1) :=
  ⟨by decide, by decide,
    register_unregister_at_most_one_context
      [.register 5 1, .register 5 2, .unregister 7] 5 2 2 (by decide) (by decide)⟩

/-- C3: in every registry state the program can reach,
`contextUnregister` on `r` leaves `r` in no set and without an entry in the
reverse map; when `r` was registered to `c` the set of `c` has lost exactly
`r` and every other set is as before; when `r` was not registered the
registry is returned as it was (the function is total, there is no error
result); in both cases the reverse entry and the memberships of every other
resource, and the keys of the context map, are unchanged. -/
theorem contextUnregister_effect (g : Registry) (hg : Reachable g) (r : Nat) :
    ((contextUnregister r g).resources r = none ∧
      ∀ c, ¬ inSet (contextUnregister r g) c r) ∧
    (∀ c, g.resources r = some c →
      ∃ s, g.contexts c = some s ∧ r ∈ s ∧
        (contextUnregister r g).contexts = mapSet g.contexts c (ResourceSet.erase r s)) ∧
    (g.resources r = none → contextUnregister r g = g) ∧
    (∀ x, x ≠ r →
      (contextUnregister r g).resources x = g.resources x ∧
      ∀ c, inSet (contextUnregister r g) c x ↔ inSet g c x) ∧
    (∀ c, (contextUnregister r g).contexts c = none ↔ g.contexts c = none) := by
  have hinv := hg.inv
  refine ⟨⟨?_, ?_⟩, ?_, unregister_of_none r g, ?_, unregister_keys r g⟩
  · rw [unregister_resources]; simp
  · intro c h
    exact ((unregister_inSet r r c g hinv).1 h).1 rfl
  · intro c hc
    obtain ⟨s, hs, hm⟩ := (inSet_iff g c r).1 ((hinv.2 c r).2 hc)
    exact ⟨s, hs, hm, unregister_contexts_registered r g c s hc hs hm⟩
  · intro x hx
    refine ⟨?_, ?_⟩
    · rw [unregister_resources]; simp [hx]
    · intro c
      rw [unregister_inSet r x c g hinv]
      simp [hx]

/-- Witness of C3: resource 21 of the sample world is unregistered; resource
20 stays in the set of context 2. -/
theorem contextUnregister_effect_witness :
    (contextUnregister 21 sampleWorld.reg).resources 21 = none ∧
    (contextUnregister 21 sampleWorld.reg).contexts
      = mapSet sampleWorld.reg.contexts 2 (ResourceSet.erase 21 [20, 21, 22]) ∧
    contextUnregister 5 sampleWorld.reg = sampleWorld.reg ∧
    inSet (contextUnregister 21 sampleWorld.reg) 2 20 := by
  have h := contextUnregister_effect sampleWorld.reg
    (runOps_reachable sampleOps _ Reachable.empty)
  refine ⟨(h 21).1.1, ?_, (h 5).2.2.1 (by decide), ?_⟩
  · obtain ⟨s, hs, _, e⟩ := (h 21).2.1 2 (by decide)
    have : s = [20, 21, 22] := by
      have h2 : sampleWorld.reg.contexts 2 = some [20, 21, 22] := by decide
      rw [h2] at hs
      exact (Option.some.inj hs).symm
    rw [← this]
    exact e
  · exact (((h 21).2.2.2.1 20 (by decide)).2 2).2 (by decide)

/-! ## Context-wide destroy and create -/

/-- C4: for every context `ctx` (whatever id it holds) and every reachable
registry, after `contextDestroy` every resource registered to the id of `ctx`
reports not-created (handle 0), being the result of one `destroy()` on it;
every resource registered to a different id is exactly as before, log
included, so no teardown ran on it; the registry is unchanged. -/
theorem contextDestroy_effect {σ : Type} (vt : Nat → Hooks σ) (w : World σ)
    (hw : Reachable w.reg) (ctx : GPUContext) :
    (∀ r, inSet w.reg ctx.contextID r →
      ((ctx.contextDestroy vt w).objs r).created = false ∧
      ((ctx.contextDestroy vt w).objs r).id = 0 ∧
      (ctx.contextDestroy vt w).objs r = GPUObject.destroy (vt r) (w.objs r)) ∧
    (∀ r c', c' ≠ ctx.contextID → inSet w.reg c' r →
      (ctx.contextDestroy vt w).objs r = w.objs r) ∧
    (ctx.contextDestroy vt w).reg = w.reg := by
  have hinv := hw.inv
  refine ⟨?_, ?_, contextDestroy_reg vt ctx w⟩
  · intro r hr
    have e := contextDestroy_objs_of_mem vt ctx w hinv r hr
    have hc := GPUObject.destroy_created_false (vt r) (w.objs r)
    rw [e]
    refine ⟨hc, ?_, rfl⟩
    simpa [GPUObject.created] using hc
  · intro r c' hc' hr
    apply contextDestroy_objs_of_not_mem
    intro hr2
    have e1 := (hinv.2 c' r).1 hr
    have e2 := (hinv.2 ctx.mContextID r).1 hr2
    exact hc' (Option.some.inj (e1.symm.trans e2))

/-- Witness of C4: context ids 1 and 2, resources 20, 21, 22 registered to id
2 and resource 10 to id 1, all created; the context holding id 2 is
destroyed. -/
theorem contextDestroy_effect_witness :
    ((GPUContext.contextDestroy sampleVt { mContextID := 2 } sampleWorld).objs 20).created
      = false ∧
    ((GPUContext.contextDestroy sampleVt { mContextID := 2 } sampleWorld).objs 21).created
      = false ∧
    ((GPUContext.contextDestroy sampleVt { mContextID := 2 } sampleWorld).objs 22).created
      = false ∧
    (GPUContext.contextDestroy sampleVt { mContextID := 2 } sampleWorld).objs 10
      = sampleWorld.objs 10 ∧
    (sampleWorld.objs 10).created = true ∧ (sampleWorld.objs 20).created = true := by
  have h := contextDestroy_effect sampleVt sampleWorld
    (runOps_reachable sampleOps _ Reachable.empty) { mContextID := 2 }
  exact ⟨(h.1 20 (by decide)).1, (h.1 21 (by decide)).1, (h.1 22 (by decide)).1,
    h.2.1 10 1 (by decide) (by decide), by decide, by decide⟩

/-- C5: for every context `ctx` and every reachable registry, when every
`onCreate` hook assigns a nonzero handle, `contextDestroy` immediately
followed by `contextCreate` leaves every resource registered to the id of
`ctx` created, leaves every other resource as it was, and leaves the
registry (both maps) equal to what it was before the two calls. -/
theorem contextDestroy_contextCreate {σ : Type} (vt : Nat → Hooks σ) (w : World σ)
    (hw : Reachable w.reg) (ctx : GPUContext)
    (hnz : ∀ r s, ((vt r).onCreate s).mID ≠ 0) :
    (ctx.contextCreate vt (ctx.contextDestroy vt w)).reg = w.reg ∧
    (∀ r, inSet w.reg ctx.contextID r →
      ((ctx.contextCreate vt (ctx.contextDestroy vt w)).objs r).created = true) ∧
    (∀ r, ¬ inSet w.reg ctx.contextID r →
      (ctx.contextCreate vt (ctx.contextDestroy vt w)).objs r = w.objs r) := by
  have hinv := hw.inv
  have hreg := contextDestroy_reg vt ctx w
  refine ⟨by rw [contextCreate_reg, hreg], ?_, ?_⟩
  · intro r hr
    have hr' : inSet (ctx.contextDestroy vt w).reg ctx.mContextID r := by
      rw [hreg]; exact hr
    rw [contextCreate_objs_of_mem vt ctx _ (by rw [hreg]; exact hinv) r hr',
      contextDestroy_objs_of_mem vt ctx w hinv r hr,
      GPUObject.create_of_not_created _ _ (GPUObject.destroy_created_false _ _)]
    simpa [GPUObject.created, GPUObject.id] using hnz r _
  · intro r hr
    have hr' : ¬ inSet (ctx.contextDestroy vt w).reg ctx.mContextID r := by
      rw [hreg]; exact hr
    rw [contextCreate_objs_of_not_mem vt ctx _ r hr',
      contextDestroy_objs_of_not_mem vt ctx w r hr]

/-- Witness of C5 on the sample world and the context holding id 2. -/
theorem contextDestroy_contextCreate_witness :
    (GPUContext.contextCreate sampleVt { mContextID := 2 }
      (GPUContext.contextDestroy sampleVt { mContextID := 2 } sampleWorld)).reg
      = sampleWorld.reg ∧
    ((GPUContext.contextCreate sampleVt { mContextID := 2 }
      (GPUContext.contextDestroy sampleVt { mContextID := 2 } sampleWorld)).objs 21).created
      = true ∧
    (GPUContext.contextCreate sampleVt { mContextID := 2 }
      (GPUContext.contextDestroy sampleVt { mContextID := 2 } sampleWorld)).objs 10
      = sampleWorld.objs 10 := by
  have h := contextDestroy_contextCreate sampleVt sampleWorld
    (runOps_reachable sampleOps _ Reachable.empty) { mContextID := 2 }
    (by intro r s; simp [sampleVt, sampleHooks])
  exact ⟨h.1, h.2.1 21 (by decide), h.2.2 10 (by decide)⟩

/-! ## Life cycle of one object -/

/-- C6: `destroy()` is idempotent. For every object state and hooks, two
calls in a row give the same data members and the same sequence of hook
invocations as one call; the teardown hook is invoked by the first call
exactly when the object was created, never by the second; the handle is 0
after one call and after two. -/
theorem destroy_idempotent {σ : Type} (H : Hooks σ) (o : GPUObject σ) :
    (GPUObject.destroy H (GPUObject.destroy H o)).st = (GPUObject.destroy H o).st ∧
    (GPUObject.destroy H (GPUObject.destroy H o)).hookLog
      = (GPUObject.destroy H o).hookLog ∧
    (GPUObject.destroy H o).hookLog
      = o.hookLog ++ (if o.created then [Event.onDestroy] else []) ∧
    (GPUObject.destroy H o).id = 0 ∧
    (GPUObject.destroy H (GPUObject.destroy H o)).id = 0 := by
  have hc := GPUObject.destroy_created_false H o
  refine ⟨?_, ?_, ?_, ?_, ?_⟩
  · rw [GPUObject.destroy_st H (GPUObject.destroy H o), hc]
    simp [GPUObject.destroy_st]
  · simp only [GPUObject.hookLog]
    rw [GPUObject.destroy_log H (GPUObject.destroy H o), hc]
    simp [Event.isHook]
  · simp only [GPUObject.hookLog, GPUObject.destroy_log]
    by_cases h : o.created = true <;> simp [h, Event.isHook]
  · simp [GPUObject.id, GPUObject.destroy_st]
  · simp [GPUObject.id, GPUObject.destroy_st]

/-- C7: on a created object, `create()` gives the same data members and the
same sequence of hook invocations as `destroy()` followed by `create()`:
`onDestroy` runs once on the old handle, then `onCreate` runs on the object
with handle 0. -/
theorem create_on_created {σ : Type} (H : Hooks σ) (o : GPUObject σ)
    (h : o.created = true) :
    (GPUObject.create H o).st = (GPUObject.create H (GPUObject.destroy H o)).st ∧
    (GPUObject.create H o).hookLog
      = (GPUObject.create H (GPUObject.destroy H o)).hookLog ∧
    (GPUObject.create H o).hookLog = o.hookLog ++ [Event.onDestroy, Event.onCreate] ∧
    (GPUObject.create H o).log
      = o.log ++ [Event.createCall, Event.destroyCall, Event.onDestroy, Event.onCreate] ∧
    (GPUObject.create H o).st = H.onCreate { H.onDestroy o.st with mID := 0 } := by
  rw [GPUObject.create_of_created H o h,
    GPUObject.create_of_not_created H _ (GPUObject.destroy_created_false H o)]
  simp [GPUObject.hookLog, GPUObject.destroy_st, GPUObject.destroy_log, h,
    Event.isHook]

/-- Witness of C7: a sample object with handle 3. -/
theorem create_on_created_witness :
    (sampleObj 3).created = true ∧
    (GPUObject.create sampleHooks (sampleObj 3)).st
      = (GPUObject.create sampleHooks (GPUObject.destroy sampleHooks (sampleObj 3))).st ∧
    (GPUObject.create sampleHooks (sampleObj 3)).log
      = [Event.createCall, Event.destroyCall, Event.onDestroy, Event.onCreate] :=
  ⟨by decide, (create_on_created sampleHooks (sampleObj 3) (by decide)).1,
    (create_on_created sampleHooks (sampleObj 3) (by decide)).2.2.2.1⟩

/-- C8: for every object state, `invalidate()` followed by `validate()` adds
to the log exactly: one call of `destroy()` (with the teardown hook when the
object was created), then one call of `create()` with the creation hook;
the data members are those `onCreate` returns for the torn-down object with
the flag cleared, so the resubmit flag is false afterwards whenever
`onCreate` leaves that flag alone. -/
theorem invalidate_validate {σ : Type} (H : Hooks σ) (o : GPUObject σ) :
    (GPUObject.validate H (GPUObject.invalidate o)).log
      = o.log ++ (Event.destroyCall :: (if o.created then [Event.onDestroy] else []))
          ++ [Event.createCall, Event.onCreate] ∧
    ((GPUObject.validate H (GPUObject.invalidate o)).log.drop o.log.length).count
      Event.destroyCall = 1 ∧
    ((GPUObject.validate H (GPUObject.invalidate o)).log.drop o.log.length).count
      Event.createCall = 1 ∧
    ((GPUObject.validate H (GPUObject.invalidate o)).log.drop o.log.length).head?
      = some Event.destroyCall ∧
    (GPUObject.validate H (GPUObject.invalidate o)).st
      = H.onCreate
          { (GPUObject.destroy H (GPUObject.invalidate o)).st with mResubmit := false } ∧
    ((∀ s, (H.onCreate s).mResubmit = s.mResubmit) →
      (GPUObject.validate H (GPUObject.invalidate o)).st.mResubmit = false) := by
  have hv : GPUObject.validate H (GPUObject.invalidate o)
      = { st := H.onCreate
            { (GPUObject.destroy H (GPUObject.invalidate o)).st with mResubmit := false },
          log := o.log ++ (Event.destroyCall ::
              (if o.created then [Event.onDestroy] else []))
            ++ [Event.createCall, Event.onCreate] } := by
    have hc : (GPUObject.invalidate o).created = o.created := rfl
    have hl : (GPUObject.invalidate o).log = o.log := rfl
    have hnc : GPUObject.created
        { st := { (GPUObject.destroy H (GPUObject.invalidate o)).st with
                    mResubmit := false },
          log := (GPUObject.destroy H (GPUObject.invalidate o)).log } = false := by
      simp [GPUObject.created, GPUObject.id, GPUObject.destroy_st]
    have hr : (GPUObject.invalidate o).st.mResubmit = true := rfl
    unfold GPUObject.validate
    simp only [hr, if_true, hnc, Bool.not_false]
    rw [GPUObject.create_of_not_created H _ hnc]
    simp [GPUObject.destroy_log, hc, hl]
  rw [hv]
  refine ⟨rfl, ?_, ?_, ?_, rfl, ?_⟩
  · by_cases h : o.created = true <;> simp [h]
  · by_cases h : o.created = true <;> simp [h]
  · simp
  · intro hf
    simp [hf]

/-- Witness of C8: a sample object with handle 3; the sample creation hook
does not write the resubmit flag. -/
theorem invalidate_validate_witness :
    (GPUObject.validate sampleHooks (GPUObject.invalidate (sampleObj 3))).log
      = [Event.destroyCall, Event.onDestroy, Event.createCall, Event.onCreate] ∧
    (GPUObject.validate sampleHooks (GPUObject.invalidate (sampleObj 3))).st.mResubmit
      = false :=
  ⟨(invalidate_validate sampleHooks (sampleObj 3)).1,
    (invalidate_validate sampleHooks (sampleObj 3)).2.2.2.2.2 (fun _ => rfl)⟩

/-- C9: `validate()` is the lazy-realize step. With a resubmit pending it
calls `destroy()`, clears the flag and then calls `create()`; with none
pending it calls `create()` exactly when the object is not created; on a
created object with no resubmit pending it returns the object unchanged, so
no hook runs. After any `validate()` the resubmit flag is false when
`onCreate` leaves that flag alone, and the object is created when `onCreate`
assigns a nonzero handle. -/
theorem validate_lazy_realize {σ : Type} (H : Hooks σ) (o : GPUObject σ) :
    (o.st.mResubmit = true →
      GPUObject.validate H o
        = GPUObject.create H
            { st := { (GPUObject.destroy H o).st with mResubmit := false },
              log := (GPUObject.destroy H o).log }) ∧
    (o.st.mResubmit = false → o.created = false →
      GPUObject.validate H o = GPUObject.create H o) ∧
    (o.st.mResubmit = false → o.created = true → GPUObject.validate H o = o) ∧
    (GPUObject.validate H o).log
      = o.log
        ++ (if o.st.mResubmit then
              Event.destroyCall :: (if o.created then [Event.onDestroy] else [])
            else [])
        ++ (if o.created && !o.st.mResubmit then []
            else [Event.createCall, Event.onCreate]) ∧
    ((∀ s, (H.onCreate s).mResubmit = s.mResubmit) →
      (GPUObject.validate H o).st.mResubmit = false) ∧
    ((∀ s, (H.onCreate s).mID ≠ 0) → (GPUObject.validate H o).created = true) := by
  have hnc : GPUObject.created
      { st := { (GPUObject.destroy H o).st with mResubmit := false },
        log := (GPUObject.destroy H o).log } = false := by
    simp [GPUObject.created, GPUObject.id, GPUObject.destroy_st]
  have h1 : o.st.mResubmit = true →
      GPUObject.validate H o
        = GPUObject.create H
            { st := { (GPUObject.destroy H o).st with mResubmit := false },
              log := (GPUObject.destroy H o).log } := by
    intro hr
    unfold GPUObject.validate
    simp only [hr, if_true, hnc, Bool.not_false]
  have h2 : o.st.mResubmit = false → o.created = false →
      GPUObject.validate H o = GPUObject.create H o := by
    intro hr hc
    unfold GPUObject.validate
    simp [hr, hc]
  have h3 : o.st.mResubmit = false → o.created = true →
      GPUObject.validate H o = o := by
    intro hr hc
    unfold GPUObject.validate
    simp [hr, hc]
  refine ⟨h1, h2, h3, ?_, ?_, ?_⟩
  · cases hr : o.st.mResubmit with
    | true =>
      rw [h1 hr, GPUObject.create_of_not_created H _ hnc]
      simp [GPUObject.destroy_log]
    | false =>
      cases hc : o.created with
      | true => rw [h3 hr hc]; simp
      | false => rw [h2 hr hc, GPUObject.create_of_not_created H _ hc]; simp
  · intro hf
    cases hr : o.st.mResubmit with
    | true =>
      rw [h1 hr, GPUObject.create_of_not_created H _ hnc]
      simp [hf]
    | false =>
      cases hc : o.created with
      | true => rw [h3 hr hc]; exact hr
      | false =>
        rw [h2 hr hc, GPUObject.create_of_not_created H _ hc]
        simp [hf, hr]
  · intro hz
    cases hr : o.st.mResubmit with
    | true =>
      rw [h1 hr, GPUObject.create_of_not_created H _ hnc]
      simpa [GPUObject.created, GPUObject.id] using hz _
    | false =>
      cases hc : o.created with
      | true => rw [h3 hr hc]; exact hc
      | false =>
        rw [h2 hr hc, GPUObject.create_of_not_created H _ hc]
        simpa [GPUObject.created, GPUObject.id] using hz _

/-- Witness of C9: a created sample object with no resubmit pending is left
as it is; a sample object that is not created gets created. -/
theorem validate_lazy_realize_witness :
    GPUObject.validate sampleHooks (sampleObj 3) = sampleObj 3 ∧
    GPUObject.validate sampleHooks (sampleObj 0)
      = GPUObject.create sampleHooks (sampleObj 0) ∧
    (GPUObject.validate sampleHooks (sampleObj 0)).st.mResubmit = false ∧
    (GPUObject.validate sampleHooks (sampleObj 0)).created = true :=
  ⟨(validate_lazy_realize sampleHooks (sampleObj 3)).2.2.1 rfl (by decide),
    (validate_lazy_realize sampleHooks (sampleObj 0)).2.1 rfl (by decide),
    (validate_lazy_realize sampleHooks (sampleObj 0)).2.2.2.2.1 (fun _ => rfl),
    (validate_lazy_realize sampleHooks (sampleObj 0)).2.2.2.2.2
      (by intro s; simp [sampleHooks])⟩

/-- C10: `invalidate()` only sets the resubmit flag. For every state and
every object address `r`: the registry is unchanged, the object keeps its
handle (so `created()` answers the same), its subclass data and its log (no
hook and no `create` / `destroy` ran), its flag is set, every other object
is unchanged, and a second call changes nothing more. -/
theorem invalidate_only_marks {σ : Type} (w : World σ) (r : Nat) :
    (World.invalidate r w).reg = w.reg ∧
    ((World.invalidate r w).objs r).st
      = { (w.objs r).st with mResubmit := true } ∧
    ((World.invalidate r w).objs r).id = (w.objs r).id ∧
    ((World.invalidate r w).objs r).created = (w.objs r).created ∧
    ((World.invalidate r w).objs r).log = (w.objs r).log ∧
    (∀ x, x ≠ r → (World.invalidate r w).objs x = w.objs x) ∧
    World.invalidate r (World.invalidate r w) = World.invalidate r w ∧
    GPUObject.invalidate (GPUObject.invalidate (w.objs r))
      = GPUObject.invalidate (w.objs r) := by
  refine ⟨rfl, ?_, ?_, ?_, ?_, ?_, ?_, rfl⟩
  · simp [World.invalidate, World.call, World.setObj, GPUObject.invalidate]
  · simp [World.invalidate, World.call, World.setObj, GPUObject.invalidate,
      GPUObject.id]
  · simp [World.invalidate, World.call, World.setObj, GPUObject.invalidate,
      GPUObject.created, GPUObject.id]
  · simp [World.invalidate, World.call, World.setObj, GPUObject.invalidate]
  · intro x hx
    simp [World.invalidate, World.call, World.setObj, hx]
  · simp only [World.invalidate, World.call, World.setObj]
    congr 1
    funext j
    by_cases hj : j = r <;> simp [hj, GPUObject.invalidate]

/-- Witness of C10: resource 20 of the sample world is invalidated; resource
21 is untouched. -/
theorem invalidate_only_marks_witness :
    ((World.invalidate 20 sampleWorld).objs 20).id = 21 ∧
    ((World.invalidate 20 sampleWorld).objs 20).st.mResubmit = true ∧
    (World.invalidate 20 sampleWorld).objs 21 = sampleWorld.objs 21 := by
  have h := invalidate_only_marks sampleWorld 20
  refine ⟨h.2.2.1, ?_, h.2.2.2.2.2.1 21 (by decide)⟩
  rw [h.2.1]

/-! ## Lemmas on the context table -/

theorem GPUContext.construct_eq {σ : Type} (a : Nat) (s : Sys σ)
    (h : s.next < INT_MAX) :
    GPUContext.construct a s
      = some { world := s.world,
               ctxs := fun j => if j = a then { mContextID := s.next } else s.ctxs j,
               live := fun j => if j = a then true else s.live j,
               table := mapSet s.table s.next a,
               next := s.next + 1 } := by
  simp [GPUContext.construct, getNextContextID, h, Sys.setID, Sys.idOf,
    GPUContext.contextID]

theorem GPUContext.construct_none {σ : Type} (a : Nat) (s : Sys σ)
    (h : ¬ s.next < INT_MAX) : GPUContext.construct a s = none := by
  simp [GPUContext.construct, getNextContextID, h]

theorem GPUContext.destruct_table {σ : Type} (vt : Nat → Hooks σ) (a : Nat)
    (s : Sys σ) :
    (GPUContext.destruct vt a s).table = mapErase s.table (s.idOf a) := by
  unfold GPUContext.destruct
  simp only [Sys.idOf]
  cases h : s.table (s.ctxs a).contextID with
  | some y => rfl
  | none =>
    funext k
    by_cases hk : k = (s.ctxs a).contextID
    · subst hk; simp [mapErase, h]
    · simp [mapErase, hk]

theorem GPUContext.makeDefault_of_default {σ : Type} (a : Nat) (s : Sys σ)
    (h : s.idOf a = GPUContext.defaultContextID) :
    GPUContext.makeDefaultContext a s = s := by
  simp [GPUContext.makeDefaultContext, h]

theorem GPUContext.makeDefault_swap {σ : Type} (a y : Nat) (s : Sys σ)
    (h : s.idOf a ≠ GPUContext.defaultContextID)
    (hy : s.table GPUContext.defaultContextID = some y) :
    GPUContext.makeDefaultContext a s
      = { world := s.world,
          ctxs := fun j => if j = a then { mContextID := GPUContext.defaultContextID }
            else if j = y then { mContextID := s.idOf a } else s.ctxs j,
          live := s.live,
          table := mapSet (mapSet s.table (s.idOf a) y) GPUContext.defaultContextID a,
          next := s.next } := by
  simp [GPUContext.makeDefaultContext, h, hy, Sys.setID]

theorem GPUContext.makeDefault_vacant {σ : Type} (a : Nat) (s : Sys σ)
    (h : s.idOf a ≠ GPUContext.defaultContextID)
    (hy : s.table GPUContext.defaultContextID = none) :
    GPUContext.makeDefaultContext a s
      = { world := s.world,
          ctxs := fun j => if j = a then { mContextID := GPUContext.defaultContextID }
            else s.ctxs j,
          live := s.live,
          table := mapSet s.table GPUContext.defaultContextID a,
          next := s.next } := by
  simp [GPUContext.makeDefaultContext, h, hy, Sys.setID]

theorem CtxInv.init {σ : Type} (w : World σ) : CtxInv (Sys.init w) := by
  refine ⟨by simp [Sys.init, GPUContext.defaultContextID], ?_, ?_, ?_⟩
  · intro a h; simp [Sys.init] at h
  · intro a b h; simp [Sys.init] at h
  · intro a; simp [Sys.init]

theorem CtxInv.construct {σ : Type} (a : Nat) {s s' : Sys σ} (hs : CtxInv s)
    (hl : s.live a = false) (h : GPUContext.construct a s = some s') :
    CtxInv s' := by
  obtain ⟨h1, h2, h3, h4⟩ := hs
  by_cases hn : s.next < INT_MAX
  · rw [GPUContext.construct_eq a s hn] at h
    cases h
    have hid : ∀ j, Sys.idOf
        ({ world := s.world,
           ctxs := fun j => if j = a then { mContextID := s.next } else s.ctxs j,
           live := fun j => if j = a then true else s.live j,
           table := mapSet s.table s.next a,
           next := s.next + 1 } : Sys σ) j
        = if j = a then s.next else s.idOf j := by
      intro j
      by_cases hj : j = a <;> simp [Sys.idOf, GPUContext.contextID, hj]
    refine ⟨by simp only; omega, ?_, ?_, ?_⟩
    · intro x hx
      rw [hid]
      by_cases hxa : x = a
      · simp only [hxa, if_true]; omega
      · simp only [hxa, if_false] at hx ⊢
        have := h2 x hx
        omega
    · intro x z hx hz hxz
      rw [hid, hid] at hxz
      by_cases hxa : x = a <;> by_cases hza : z = a
      · rw [hxa, hza]
      · simp only [hxa, hza, if_true, if_false] at hxz hz
        have := (h2 z hz).2
        omega
      · simp only [hxa, hza, if_true, if_false] at hxz hx
        have := (h2 x hx).2
        omega
      · simp only [hxa, hza, if_false] at hxz hx hz
        exact h3 x z hx hz hxz
    · intro x
      rw [hid]
      simp only [mapSet]
      by_cases hd : GPUContext.defaultContextID = s.next
      · simp only [hd, if_true, Option.some.injEq]
        constructor
        · intro e; subst e; simp
        · rintro ⟨hx, hx'⟩
          by_cases hxa : x = a
          · exact hxa.symm
          · simp only [hxa, if_false] at hx hx'
            have := (h2 x hx).2
            omega
      · simp only [hd, if_false]
        rw [h4 x]
        by_cases hxa : x = a
        · subst hxa
          simp only [hl, if_true]
          constructor
          · intro e; exact absurd e.1 (by simp)
          · intro e; exact absurd e.2.symm hd
        · simp only [hxa, if_false]
  · rw [GPUContext.construct_none a s hn] at h
    cases h

theorem CtxInv.destruct {σ : Type} (vt : Nat → Hooks σ) (a : Nat) {s : Sys σ}
    (hs : CtxInv s) (hl : s.live a = true) : CtxInv (GPUContext.destruct vt a s) := by
  obtain ⟨h1, h2, h3, h4⟩ := hs
  have ht := GPUContext.destruct_table vt a s
  have hlive : ∀ j, (GPUContext.destruct vt a s).live j
      = if j = a then false else s.live j := fun j => rfl
  have hid : ∀ j, (GPUContext.destruct vt a s).idOf j = s.idOf j := fun j => rfl
  have hnext : (GPUContext.destruct vt a s).next = s.next := rfl
  refine ⟨by rw [hnext]; exact h1, ?_, ?_, ?_⟩
  · intro x hx
    rw [hlive] at hx
    rw [hid, hnext]
    by_cases hxa : x = a
    · simp [hxa] at hx
    · simp only [hxa, if_false] at hx
      exact h2 x hx
  · intro x z hx hz hxz
    rw [hlive] at hx hz
    rw [hid, hid] at hxz
    by_cases hxa : x = a
    · simp [hxa] at hx
    · by_cases hza : z = a
      · simp [hza] at hz
      · simp only [hxa, hza, if_false] at hx hz
        exact h3 x z hx hz hxz
  · intro x
    rw [ht, hlive, hid]
    simp only [mapErase]
    by_cases hxa : x = a
    · subst hxa
      simp only [if_true]
      constructor
      · intro e
        split_ifs at e with hd
        have := ((h4 x).1 e).2
        exact absurd this.symm hd
      · intro e; exact absurd e.1 (by simp)
    · simp only [hxa, if_false]
      by_cases hd : GPUContext.defaultContextID = s.idOf a
      · simp only [hd, if_true]
        constructor
        · intro e; cases e
        · rintro ⟨hx, hx'⟩
          exact absurd (h3 x a hx hl hx') hxa
      · simp only [hd, if_false]
        exact h4 x

theorem CtxInv.makeDefault {σ : Type} (a : Nat) {s : Sys σ} (hs : CtxInv s)
    (hl : s.live a = true) : CtxInv (GPUContext.makeDefaultContext a s) := by
  by_cases hm : s.idOf a = GPUContext.defaultContextID
  · rw [GPUContext.makeDefault_of_default a s hm]; exact hs
  obtain ⟨h1, h2, h3, h4⟩ := hs
  have ha := h2 a hl
  have hm' : s.idOf a ≠ 1 := hm
  cases hy : s.table GPUContext.defaultContextID with
  | some y =>
    rw [GPUContext.makeDefault_swap a y s hm hy]
    obtain ⟨hyl, hyd⟩ := (h4 y).1 hy
    have hya : y ≠ a := by
      rintro rfl
      exact hm hyd
    have hid : ∀ j, Sys.idOf
        ({ world := s.world,
           ctxs := fun j => if j = a then { mContextID := GPUContext.defaultContextID }
             else if j = y then { mContextID := s.idOf a } else s.ctxs j,
           live := s.live,
           table := mapSet (mapSet s.table (s.idOf a) y) GPUContext.defaultContextID a,
           next := s.next } : Sys σ) j
        = if j = a then GPUContext.defaultContextID
          else if j = y then s.idOf a else s.idOf j := by
      intro j
      by_cases hj : j = a
      · simp [Sys.idOf, GPUContext.contextID, hj]
      · by_cases hj' : j = y <;> simp [Sys.idOf, GPUContext.contextID, hj, hj', hya]
    refine ⟨h1, ?_, ?_, ?_⟩
    · intro x hx
      rw [hid]
      have hx2 := h2 x hx
      have hy2 := h2 y hyl
      rw [hyd] at hy2
      split_ifs
      · exact hy2
      · exact ha
      · exact hx2
    · intro x z hx hz hxz
      rw [hid, hid] at hxz
      have key : ∀ u, s.live u = true → u ≠ a → u ≠ y →
          s.idOf u ≠ GPUContext.defaultContextID ∧ s.idOf u ≠ s.idOf a := by
        intro u hu hua huy
        constructor
        · intro e; exact huy (h3 u y hu hyl (e.trans hyd.symm))
        · intro e; exact hua (h3 u a hu hl e)
      by_cases hxa : x = a <;> by_cases hza : z = a
      · rw [hxa, hza]
      · by_cases hzy : z = y
        · simp only [hxa, hza, hzy, hya, if_true, if_false] at hxz
          exact absurd hxz.symm hm
        · simp only [hxa, hza, hzy, if_true, if_false] at hxz
          exact absurd hxz.symm (key z hz hza hzy).1
      · by_cases hxy : x = y
        · simp only [hxa, hza, hxy, hya, if_true, if_false] at hxz
          exact absurd hxz hm
        · simp only [hxa, hza, hxy, if_true, if_false] at hxz
          exact absurd hxz (key x hx hxa hxy).1
      · by_cases hxy : x = y <;> by_cases hzy : z = y
        · rw [hxy, hzy]
        · simp only [hxa, hza, hxy, hzy, hya, if_true, if_false] at hxz
          exact absurd hxz.symm (key z hz hza hzy).2
        · simp only [hxa, hza, hxy, hzy, hya, if_true, if_false] at hxz
          exact absurd hxz (key x hx hxa hxy).2
        · simp only [hxa, hza, hxy, hzy, if_false] at hxz
          exact h3 x z hx hz hxz
    · intro x
      rw [hid]
      simp only [mapSet, if_true, Option.some.injEq]
      constructor
      · intro e; subst e; simp [hl]
      · rintro ⟨hx, hx'⟩
        by_cases hxa : x = a
        · exact hxa.symm
        · by_cases hxy : x = y
          · simp only [hxa, hxy, hya, if_true, if_false] at hx'
            exact absurd hx' hm
          · simp only [hxa, hxy, if_false] at hx'
            exact absurd (h3 x y hx hyl (hx'.trans hyd.symm)) hxy
  | none =>
    rw [GPUContext.makeDefault_vacant a s hm hy]
    have hno : ∀ u, s.live u = true → s.idOf u ≠ GPUContext.defaultContextID := by
      intro u hu e
      have := (h4 u).2 ⟨hu, e⟩
      rw [hy] at this
      cases this
    have hid : ∀ j, Sys.idOf
        ({ world := s.world,
           ctxs := fun j => if j = a then { mContextID := GPUContext.defaultContextID }
             else s.ctxs j,
           live := s.live,
           table := mapSet s.table GPUContext.defaultContextID a,
           next := s.next } : Sys σ) j
        = if j = a then GPUContext.defaultContextID else s.idOf j := by
      intro j
      by_cases hj : j = a <;> simp [Sys.idOf, GPUContext.contextID, hj]
    refine ⟨h1, ?_, ?_, ?_⟩
    · intro x hx
      rw [hid]
      split_ifs
      · constructor
        · simp [GPUContext.defaultContextID]
        · show (1 : Int) < s.next
          omega
      · exact h2 x hx
    · intro x z hx hz hxz
      rw [hid, hid] at hxz
      by_cases hxa : x = a <;> by_cases hza : z = a
      · rw [hxa, hza]
      · simp only [hxa, hza, if_true, if_false] at hxz
        exact absurd hxz.symm (hno z hz)
      · simp only [hxa, hza, if_true, if_false] at hxz
        exact absurd hxz (hno x hx)
      · simp only [hxa, hza, if_false] at hxz
        exact h3 x z hx hz hxz
    · intro x
      rw [hid]
      simp only [mapSet, if_true, Option.some.injEq]
      constructor
      · intro e; subst e; simp [hl]
      · rintro ⟨hx, hx'⟩
        by_cases hxa : x = a
        · exact hxa.symm
        · simp only [hxa, if_false] at hx'
          exact absurd hx' (hno x hx)

theorem CtxInv.step {σ : Type} (vt : Nat → Hooks σ) (op : CtxOp) {s s' : Sys σ}
    (hs : CtxInv s) (h : op.step vt s = some s') : CtxInv s' := by
  cases op with
  | construct a =>
    simp only [CtxOp.step] at h
    cases hl : s.live a with
    | true => simp [hl] at h
    | false =>
      simp only [hl] at h
      exact hs.construct a hl h
  | destruct a =>
    simp only [CtxOp.step] at h
    cases hl : s.live a with
    | true =>
      simp only [hl, if_true, Option.some.injEq] at h
      rw [← h]
      exact hs.destruct vt a hl
    | false => simp [hl] at h
  | makeDefault a =>
    simp only [CtxOp.step] at h
    cases hl : s.live a with
    | true =>
      simp only [hl, if_true, Option.some.injEq] at h
      rw [← h]
      exact hs.makeDefault a hl
    | false => simp [hl] at h

theorem runCtx_inv {σ : Type} (vt : Nat → Hooks σ) (ops : List CtxOp) :
    ∀ s s' : Sys σ, CtxInv s → runCtx vt ops s = some s' → CtxInv s' := by
  induction ops with
  | nil =>
    intro s s' hs h
    simp only [runCtx, Option.some.injEq] at h
    rw [← h]; exact hs
  | cons op ops ih =>
    intro s s' hs h
    simp only [runCtx] at h
    cases h1 : op.step vt s with
    | none => simp [h1] at h
    | some s1 =>
      rw [h1] at h
      exact ih s1 s' (hs.step vt op h1) h

theorem GPUContext.makeDefault_frame {σ : Type} (a : Nat) (s : Sys σ) :
    (GPUContext.makeDefaultContext a s).world = s.world ∧
    (GPUContext.makeDefaultContext a s).next = s.next ∧
    (GPUContext.makeDefaultContext a s).live = s.live := by
  by_cases hm : s.idOf a = GPUContext.defaultContextID
  · rw [GPUContext.makeDefault_of_default a s hm]
    exact ⟨rfl, rfl, rfl⟩
  · cases hy : s.table GPUContext.defaultContextID with
    | some y =>
      rw [GPUContext.makeDefault_swap a y s hm hy]
      exact ⟨rfl, rfl, rfl⟩
    | none =>
      rw [GPUContext.makeDefault_vacant a s hm hy]
      exact ⟨rfl, rfl, rfl⟩

theorem CtxOp.step_next {σ : Type} (vt : Nat → Hooks σ) (op : CtxOp) {s s' : Sys σ}
    (h : op.step vt s = some s') :
    s'.next = s.next + (if op.isConstruct then 1 else 0) := by
  cases op with
  | construct a =>
    simp only [CtxOp.step] at h
    split_ifs at h with hl
    by_cases hn : s.next < INT_MAX
    · rw [GPUContext.construct_eq a s hn] at h
      cases h
      simp [CtxOp.isConstruct]
    · rw [GPUContext.construct_none a s hn] at h
      cases h
  | destruct a =>
    simp only [CtxOp.step] at h
    split_ifs at h with hl
    cases h
    simp [CtxOp.isConstruct, GPUContext.destruct]
  | makeDefault a =>
    simp only [CtxOp.step] at h
    split_ifs at h with hl
    cases h
    simp only [CtxOp.isConstruct, Bool.false_eq_true, if_false, add_zero]
    exact (GPUContext.makeDefault_frame a s).2.1

theorem runCtx_next {σ : Type} (vt : Nat → Hooks σ) (ops : List CtxOp) :
    ∀ s s' : Sys σ, runCtx vt ops s = some s' →
      s'.next = s.next + (ops.countP CtxOp.isConstruct : Nat) := by
  induction ops with
  | nil =>
    intro s s' h
    simp only [runCtx, Option.some.injEq] at h
    simp [← h]
  | cons op ops ih =>
    intro s s' h
    simp only [runCtx] at h
    cases h1 : op.step vt s with
    | none => simp [h1] at h
    | some s1 =>
      rw [h1] at h
      rw [ih s1 s' h, CtxOp.step_next vt op h1, List.countP_cons]
      by_cases hc : op.isConstruct = true
      · simp [hc]; ring
      · simp [hc]

theorem runCtx_append {σ : Type} (vt : Nat → Hooks σ) (xs ys : List CtxOp) :
    ∀ s : Sys σ, runCtx vt (xs ++ ys) s = (runCtx vt xs s).bind (runCtx vt ys) := by
  induction xs with
  | nil => intro s; rfl
  | cons op xs ih =>
    intro s
    simp only [List.cons_append, runCtx]
    cases op.step vt s with
    | none => rfl
    | some s1 => exact ih s1

theorem CtxOp.step_reg {σ : Type} (vt : Nat → Hooks σ) (op : CtxOp) {s s' : Sys σ}
    (h : op.step vt s = some s') : s'.world.reg = s.world.reg := by
  cases op with
  | construct a =>
    simp only [CtxOp.step] at h
    split_ifs at h with hl
    by_cases hn : s.next < INT_MAX
    · rw [GPUContext.construct_eq a s hn] at h
      cases h
      rfl
    · rw [GPUContext.construct_none a s hn] at h
      cases h
  | destruct a =>
    simp only [CtxOp.step] at h
    split_ifs at h with hl
    cases h
    exact contextDestroy_reg vt (s.ctxs a) s.world
  | makeDefault a =>
    simp only [CtxOp.step] at h
    split_ifs at h with hl
    cases h
    rw [(GPUContext.makeDefault_frame a s).1]

/-! ## Destruction of a GPU object -/

/-- C11, as stated, fails: resource 20 of the sample world is created, and
after its destructor has run its handle is still nonzero and its log holds no
teardown, since the destructor body only calls `contextUnregister()`. -/
theorem destructor_skips_destroy :
    (sampleWorld.objs 20).created = true ∧
    ((World.destruct 20 sampleWorld).objs 20).created = true ∧
    Event.onDestroy ∉ ((World.destruct 20 sampleWorld).objs 20).log ∧
    Event.destroyCall ∉ ((World.destruct 20 sampleWorld).objs 20).log := by
  decide

/-- C11, amended: in every reachable registry the destructor of the object at
`r` unregisters it, so that afterwards `r` has no reverse entry and is in no
set; it performs no `destroy()`: every object, `r` included, keeps its data
members and its log. -/
theorem destructor_unregisters {σ : Type} (w : World σ) (hw : Reachable w.reg)
    (r : Nat) :
    (World.destruct r w).reg = contextUnregister r w.reg ∧
    (World.destruct r w).reg.resources r = none ∧
    (∀ c, ¬ inSet (World.destruct r w).reg c r) ∧
    (World.destruct r w).objs = w.objs := by
  refine ⟨rfl, ?_, ?_, rfl⟩
  · show (contextUnregister r w.reg).resources r = none
    rw [unregister_resources]; simp
  · intro c h
    exact ((unregister_inSet r r c w.reg hw.inv).1 h).1 rfl

/-- Witness of the amended C11 on resource 20 of the sample world. -/
theorem destructor_unregisters_witness :
    (World.destruct 20 sampleWorld).reg.resources 20 = none ∧
    ¬ inSet (World.destruct 20 sampleWorld).reg 2 20 ∧
    (World.destruct 20 sampleWorld).objs = sampleWorld.objs := by
  have h := destructor_unregisters sampleWorld
    (runOps_reachable sampleOps _ Reachable.empty) 20
  exact ⟨h.2.1, h.2.2.1 2, h.2.2.2⟩

/-! ## Context identifiers -/

/-- C12: in a run of context constructions, destructions and
`makeDefaultContext` calls from the initial state, the constructor that
follows `n - 1` earlier constructions (and any number of destructions) has a
result as long as `n < INT_MAX` and the address is free; the new context then
holds identifier `defaultContextID() + n - 1 = n`, which is not 0 and exceeds
the identifier of every context alive; the table maps it to the new context;
and every later constructor of the run assigns a strictly larger
identifier. -/
theorem construct_assigns_next_id {σ : Type} (vt : Nat → Hooks σ) (w : World σ)
    (pre : List CtxOp) (a : Nat) (s : Sys σ)
    (h : runCtx vt pre (Sys.init w) = some s) :
    (s.live a = false → ((pre.countP CtxOp.isConstruct : Nat) : Int) + 1 < INT_MAX →
      ∃ s', (CtxOp.construct a).step vt s = some s') ∧
    (∀ s', (CtxOp.construct a).step vt s = some s' →
      s'.idOf a
        = GPUContext.defaultContextID + ((pre.countP CtxOp.isConstruct + 1 : Nat) : Int) - 1 ∧
      s'.idOf a = ((pre.countP CtxOp.isConstruct + 1 : Nat) : Int) ∧
      s'.idOf a ≠ 0 ∧
      s'.table (s'.idOf a) = some a ∧
      s'.live a = true ∧
      (∀ b, s.live b = true → s.idOf b < s'.idOf a) ∧
      (∀ (mid : List CtxOp) (b : Nat) (t t' : Sys σ), runCtx vt mid s' = some t →
        (CtxOp.construct b).step vt t = some t' → s'.idOf a < t'.idOf b)) := by
  have hnext := runCtx_next vt pre _ s h
  have hinv := runCtx_inv vt pre _ s (CtxInv.init w) h
  have hinit : (Sys.init w).next = 1 := rfl
  rw [hinit] at hnext
  have key : ∀ (u : Sys σ) (b : Nat) (u' : Sys σ),
      (CtxOp.construct b).step vt u = some u' →
      u'.idOf b = u.next ∧ u'.table (u'.idOf b) = some b ∧ u'.live b = true := by
    intro u b u' hu
    simp only [CtxOp.step] at hu
    split_ifs at hu with hl
    by_cases hn : u.next < INT_MAX
    · rw [GPUContext.construct_eq b u hn] at hu
      cases hu
      simp [Sys.idOf, GPUContext.contextID, mapSet]
    · rw [GPUContext.construct_none b u hn] at hu
      cases hu
  constructor
  · intro hl hn
    have hn' : s.next < INT_MAX := by rw [hnext]; omega
    have e : (CtxOp.construct a).step vt s = GPUContext.construct a s := by
      simp [CtxOp.step, hl]
    rw [e, GPUContext.construct_eq a s hn']
    exact ⟨_, rfl⟩
  · intro s' hs'
    obtain ⟨k1, k2, k3⟩ := key s a s' hs'
    have hid : s'.idOf a = ((pre.countP CtxOp.isConstruct + 1 : Nat) : Int) := by
      rw [k1, hnext]; push_cast; ring
    refine ⟨?_, hid, ?_, k2, k3, ?_, ?_⟩
    · rw [hid]; simp [GPUContext.defaultContextID]
    · rw [hid]; omega
    · intro b hb
      rw [k1]
      exact (hinv.2.1 b hb).2
    · intro mid b t t' ht ht'
      have h1 := CtxOp.step_next vt (.construct a) hs'
      have h2 := runCtx_next vt mid s' t ht
      rw [(key t b t' ht').1, h2, h1, k1]
      simp only [CtxOp.isConstruct, if_true]
      omega

/-- Witness of C12: contexts are constructed at addresses 0 and 1, the first
is destructed, and a third is constructed at address 0; it holds identifier
3, not the identifier 1 that has become free. -/
theorem construct_assigns_next_id_witness :
    ∃ s s', runCtx sampleVt [.construct 0, .construct 1, .destruct 0]
        (Sys.init sampleWorld) = some s ∧
      (CtxOp.construct 0).step sampleVt s = some s' ∧
      s'.idOf 0 = 3 ∧ s'.table 3 = some 0 := by
  have h : runCtx sampleVt [.construct 0, .construct 1, .destruct 0]
      (Sys.init sampleWorld) = some _ := rfl
  have hc := construct_assigns_next_id sampleVt sampleWorld _ 0 _ h
  obtain ⟨s', hs'⟩ := hc.1 (by decide) (by decide)
  have hid := (hc.2 s' hs').2.1
  have ht := (hc.2 s' hs').2.2.2.1
  refine ⟨_, s', h, hs', ?_, ?_⟩
  · rw [hid]; decide
  · rw [hid] at ht
    exact ht

/-- C13, evaluated at the sequence that breaks it: context A is constructed
at address 0 (identifier 1) and context B at address 1 (identifier 2), A is
destructed, B is made the default context (nobody holds identifier 1, and the
entry of identifier 2 is left in the table), and B is destructed. The run has
a result, B is no longer alive, and the table still maps identifier 2 to
B. -/
theorem destructor_leaves_stale_entry :
    ∃ s, runCtx sampleVt staleOps (Sys.init sampleWorld) = some s ∧
      s.live 1 = false ∧ s.table 2 = some 1 ∧ s.table 1 = none :=
  ⟨_, rfl, rfl, rfl, rfl⟩

/-- C14: in every state reached from the initial state by context
constructions, destructions and `makeDefaultContext` calls, two different
contexts that are alive report different identifiers; and when
`makeDefaultContext` is called on a context `a` that does not hold the
default identifier while the table gives `y` as its holder, then `y` is
another context that is alive and holds the default identifier, and after
the call `a` holds the identifier `y` had and `y` holds the identifier `a`
had, every other context keeping its own. -/
theorem live_identifiers_distinct {σ : Type} (vt : Nat → Hooks σ) (w : World σ)
    (ops : List CtxOp) (s : Sys σ) (h : runCtx vt ops (Sys.init w) = some s) :
    (∀ a b, s.live a = true → s.live b = true → a ≠ b → s.idOf a ≠ s.idOf b) ∧
    (∀ a y, s.live a = true → s.idOf a ≠ GPUContext.defaultContextID →
      s.table GPUContext.defaultContextID = some y →
      y ≠ a ∧ s.live y = true ∧ s.idOf y = GPUContext.defaultContextID ∧
      (GPUContext.makeDefaultContext a s).idOf a = s.idOf y ∧
      (GPUContext.makeDefaultContext a s).idOf y = s.idOf a ∧
      (∀ j, j ≠ a → j ≠ y → (GPUContext.makeDefaultContext a s).idOf j = s.idOf j) ∧
      (∀ b c, s.live b = true → s.live c = true → b ≠ c →
        (GPUContext.makeDefaultContext a s).idOf b
          ≠ (GPUContext.makeDefaultContext a s).idOf c)) := by
  have hinv := runCtx_inv vt ops _ s (CtxInv.init w) h
  refine ⟨fun a b ha hb hab e => hab (hinv.2.2.1 a b ha hb e), ?_⟩
  intro a y ha hm hy
  obtain ⟨hyl, hyd⟩ := (hinv.2.2.2 y).1 hy
  have hya : y ≠ a := by
    rintro rfl
    exact hm hyd
  have hinv' := hinv.makeDefault a ha
  have hlive := (GPUContext.makeDefault_frame a s).2.2
  refine ⟨hya, hyl, hyd, ?_, ?_, ?_, ?_⟩
  · rw [GPUContext.makeDefault_swap a y s hm hy, hyd]
    simp [Sys.idOf, GPUContext.contextID]
  · rw [GPUContext.makeDefault_swap a y s hm hy]
    simp [Sys.idOf, GPUContext.contextID, hya]
  · intro j hja hjy
    rw [GPUContext.makeDefault_swap a y s hm hy]
    simp [Sys.idOf, GPUContext.contextID, hja, hjy]
  · intro b c hb hc hbc e
    exact hbc (hinv'.2.2.1 b c (by rw [hlive]; exact hb) (by rw [hlive]; exact hc) e)

/-- Witness of C14: contexts at addresses 0 and 1 hold identifiers 1 and 2;
`makeDefaultContext` on the second exchanges them. -/
theorem live_identifiers_distinct_witness :
    ∃ s, runCtx sampleVt [.construct 0, .construct 1] (Sys.init sampleWorld) = some s ∧
      s.idOf 0 = 1 ∧ s.idOf 1 = 2 ∧
      (GPUContext.makeDefaultContext 1 s).idOf 1 = 1 ∧
      (GPUContext.makeDefaultContext 1 s).idOf 0 = 2 := by
  have h : runCtx sampleVt [.construct 0, .construct 1] (Sys.init sampleWorld)
      = some _ := rfl
  have hc := (live_identifiers_distinct sampleVt sampleWorld _ _ h).2 1 0
    (by decide) (by decide) (by decide)
  exact ⟨_, h, by decide, by decide, hc.2.2.2.1, hc.2.2.2.2.1⟩

/-- C15: for every state and every context `a` with identifier `m` different
from the default identifier, after `makeDefaultContext` the context `a` holds
the default identifier and the table maps it to `a`; when the table gave
another context `y` as holder of the default identifier, `y` now holds `m`
and the table maps `m` to `y`. On a context that holds the default
identifier the call returns the state unchanged, and a second call in a row
changes nothing in every case. -/
theorem makeDefaultContext_effect {σ : Type} (a : Nat) (s : Sys σ) :
    (s.idOf a ≠ GPUContext.defaultContextID →
      (GPUContext.makeDefaultContext a s).idOf a = GPUContext.defaultContextID ∧
      (GPUContext.makeDefaultContext a s).table GPUContext.defaultContextID = some a ∧
      ∀ y, y ≠ a → s.table GPUContext.defaultContextID = some y →
        (GPUContext.makeDefaultContext a s).idOf y = s.idOf a ∧
        (GPUContext.makeDefaultContext a s).table (s.idOf a) = some y) ∧
    (s.idOf a = GPUContext.defaultContextID → GPUContext.makeDefaultContext a s = s) ∧
    GPUContext.makeDefaultContext a (GPUContext.makeDefaultContext a s)
      = GPUContext.makeDefaultContext a s := by
  have hpost : (GPUContext.makeDefaultContext a s).idOf a
      = GPUContext.defaultContextID := by
    by_cases hm : s.idOf a = GPUContext.defaultContextID
    · rw [GPUContext.makeDefault_of_default a s hm]; exact hm
    · cases hy : s.table GPUContext.defaultContextID with
      | some y =>
        rw [GPUContext.makeDefault_swap a y s hm hy]
        simp [Sys.idOf, GPUContext.contextID]
      | none =>
        rw [GPUContext.makeDefault_vacant a s hm hy]
        simp [Sys.idOf, GPUContext.contextID]
  refine ⟨?_, GPUContext.makeDefault_of_default a s, GPUContext.makeDefault_of_default a _ hpost⟩
  intro hm
  refine ⟨hpost, ?_, ?_⟩
  · cases hy : s.table GPUContext.defaultContextID with
    | some y => rw [GPUContext.makeDefault_swap a y s hm hy]; simp [mapSet]
    | none => rw [GPUContext.makeDefault_vacant a s hm hy]; simp [mapSet]
  · intro y hya hy
    rw [GPUContext.makeDefault_swap a y s hm hy]
    refine ⟨by simp [Sys.idOf, GPUContext.contextID, hya], ?_⟩
    simp [mapSet, hm]

/-- Witness of C15 on two contexts holding identifiers 1 and 2. -/
theorem makeDefaultContext_effect_witness :
    ∃ s, runCtx sampleVt [.construct 0, .construct 1] (Sys.init sampleWorld) = some s ∧
      (GPUContext.makeDefaultContext 1 s).idOf 1 = 1 ∧
      (GPUContext.makeDefaultContext 1 s).table 1 = some 1 ∧
      (GPUContext.makeDefaultContext 1 s).idOf 0 = 2 ∧
      (GPUContext.makeDefaultContext 1 s).table 2 = some 0 ∧
      GPUContext.makeDefaultContext 0 s = s := by
  have h : runCtx sampleVt [.construct 0, .construct 1] (Sys.init sampleWorld)
      = some _ := rfl
  exact ⟨_, h, ((makeDefaultContext_effect 1 _).1 (by decide)).1,
    ((makeDefaultContext_effect 1 _).1 (by decide)).2.1,
    (((makeDefaultContext_effect 1 _).1 (by decide)).2.2 0 (by decide) rfl).1,
    (((makeDefaultContext_effect 1 _).1 (by decide)).2.2 0 (by decide) rfl).2,
    (makeDefaultContext_effect 0 _).2.1 rfl⟩

/-- C16: for every state, `makeDefaultContext` leaves the registry and all
GPU objects (both registry maps, every handle, every resubmit flag) as they
were, as well as the counter and which contexts are alive; the only context
objects whose identifier can change are `a` and the context the table gave
as holder of the default identifier. -/
theorem makeDefaultContext_no_migration {σ : Type} (a : Nat) (s : Sys σ) :
    (GPUContext.makeDefaultContext a s).world = s.world ∧
    (GPUContext.makeDefaultContext a s).next = s.next ∧
    (GPUContext.makeDefaultContext a s).live = s.live ∧
    (∀ j, j ≠ a → s.table GPUContext.defaultContextID ≠ some j →
      (GPUContext.makeDefaultContext a s).ctxs j = s.ctxs j) := by
  obtain ⟨h1, h2, h3⟩ := GPUContext.makeDefault_frame a s
  refine ⟨h1, h2, h3, ?_⟩
  intro j hja hj
  by_cases hm : s.idOf a = GPUContext.defaultContextID
  · rw [GPUContext.makeDefault_of_default a s hm]
  · cases hy : s.table GPUContext.defaultContextID with
    | some y =>
      rw [GPUContext.makeDefault_swap a y s hm hy]
      have hjy : j ≠ y := by
        rintro rfl
        exact hj hy
      simp [hja, hjy]
    | none =>
      rw [GPUContext.makeDefault_vacant a s hm hy]
      simp [hja]

/-- Witness of C16: a third context at address 2 keeps identifier 3 when the
context at address 1 is made the default one, and the registry still has
resources 20, 21 and 22 under identifier 2. -/
theorem makeDefaultContext_no_migration_witness :
    ∃ s, runCtx sampleVt [.construct 0, .construct 1, .construct 2]
        (Sys.init sampleWorld) = some s ∧
      (GPUContext.makeDefaultContext 1 s).ctxs 2 = s.ctxs 2 ∧
      (GPUContext.makeDefaultContext 1 s).world = sampleWorld := by
  have h : runCtx sampleVt [.construct 0, .construct 1, .construct 2]
      (Sys.init sampleWorld) = some _ := rfl
  refine ⟨_, h, ?_, ?_⟩
  · exact (makeDefaultContext_no_migration 1 _).2.2.2 2 (by decide) (by decide)
  · exact (makeDefaultContext_no_migration 1 _).1

/-! ## Lemmas on the graphics domain -/

theorem GraphicsDomain.subdomainPass_eq (ev : Nat → DomainEvent)
    (ok : SubDomain → Bool) (pre : Bool) (subs : List SubDomain) :
    ∀ (ret : Bool) (d : GraphicsDomain),
      GraphicsDomain.subdomainPass ev ok pre subs (ret, d)
        = (ret && GraphicsDomain.passResult ok pre subs,
           { d with trace := d.trace ++ GraphicsDomain.passEvents ev pre subs }) := by
  induction subs with
  | nil =>
    intro ret d
    simp [GraphicsDomain.subdomainPass, GraphicsDomain.passResult,
      GraphicsDomain.passEvents]
  | cons sd rest ih =>
    intro ret d
    unfold GraphicsDomain.subdomainPass
    by_cases hp : sd.pre = pre
    · simp only [hp, if_true]
      rw [ih]
      simp [GraphicsDomain.passResult, GraphicsDomain.passEvents, hp,
        GraphicsDomain.emit, Bool.and_assoc]
    · simp only [hp, if_false]
      rw [ih]
      simp [GraphicsDomain.passResult, GraphicsDomain.passEvents, hp]

theorem GraphicsDomain.initializeSubdomains_eq (env : Env) (pre : Bool)
    (d : GraphicsDomain) :
    GraphicsDomain.initializeSubdomains env pre d
      = (GraphicsDomain.passResult SubDomain.initOk pre env.subs,
         { d with trace := d.trace ++ DomainEvent.initializeSubdomains pre ::
             GraphicsDomain.passEvents .subInitialize pre env.subs }) := by
  simp [GraphicsDomain.initializeSubdomains, GraphicsDomain.subdomainPass_eq,
    GraphicsDomain.emit]

theorem GraphicsDomain.tickSubdomains_eq (env : Env) (pre : Bool)
    (d : GraphicsDomain) :
    GraphicsDomain.tickSubdomains env pre d
      = (GraphicsDomain.passResult SubDomain.tickOk pre env.subs,
         { d with trace := d.trace ++ DomainEvent.tickSubdomains pre ::
             GraphicsDomain.passEvents .subTick pre env.subs }) := by
  simp [GraphicsDomain.tickSubdomains, GraphicsDomain.subdomainPass_eq,
    GraphicsDomain.emit]

theorem GraphicsDomain.cleanupSubdomains_eq (env : Env) (pre : Bool)
    (d : GraphicsDomain) :
    GraphicsDomain.cleanupSubdomains env pre d
      = (GraphicsDomain.passResult SubDomain.cleanupOk pre env.subs,
         { d with trace := d.trace ++ DomainEvent.cleanupSubdomains pre ::
             GraphicsDomain.passEvents .subCleanup pre env.subs }) := by
  simp [GraphicsDomain.cleanupSubdomains, GraphicsDomain.subdomainPass_eq,
    GraphicsDomain.emit]

theorem GraphicsDomain.frame_eq (env : Env) (d : GraphicsDomain) :
    GraphicsDomain.frame env d
      = { d with trace := d.trace ++ GraphicsDomain.frameOrder env } := by
  simp [GraphicsDomain.frame, GraphicsDomain.tickSubdomains_eq, GraphicsDomain.emit,
    GraphicsDomain.frameOrder]

theorem GraphicsDomain.stop_eq (env : Env) (d : GraphicsDomain) :
    GraphicsDomain.stop env d
      = (GraphicsDomain.passResult SubDomain.cleanupOk true env.subs
           && GraphicsDomain.passResult SubDomain.cleanupOk false env.subs,
         { mRunning := false,
           trace := d.trace ++ [DomainEvent.callStopCallbacks,
               DomainEvent.cleanupSubdomains true]
             ++ GraphicsDomain.passEvents .subCleanup true env.subs
             ++ [DomainEvent.onExit, DomainEvent.postOnExit, DomainEvent.appDestroy,
               DomainEvent.cleanupSubdomains false]
             ++ GraphicsDomain.passEvents .subCleanup false env.subs,
           polls := d.polls }) := by
  simp [GraphicsDomain.stop, GraphicsDomain.cleanupSubdomains_eq, GraphicsDomain.emit]

theorem GraphicsDomain.mainLoop_some (env : Env) : ∀ (fuel : Nat) (d d' : GraphicsDomain),
    GraphicsDomain.mainLoop env fuel d = some d' →
    ∃ n, n < fuel ∧
      (∀ i, i < n → env.quit (d.polls + i) = false) ∧
      env.quit (d.polls + n) = true ∧
      d' = { mRunning := d.mRunning,
             trace := d.trace
               ++ (List.replicate n (DomainEvent.shouldQuit :: GraphicsDomain.frameOrder env)).flatten
               ++ [DomainEvent.shouldQuit],
             polls := d.polls + n + 1 } := by
  intro fuel
  induction fuel with
  | zero => intro d d' h; simp [GraphicsDomain.mainLoop] at h
  | succ fuel ih =>
    intro d d' h
    simp only [GraphicsDomain.mainLoop, GraphicsDomain.shouldQuit] at h
    cases hq : env.quit d.polls with
    | true =>
      simp only [hq, Bool.not_true, Bool.false_eq_true, if_false,
        Option.some.injEq] at h
      refine ⟨0, Nat.succ_pos _, ?_, ?_, ?_⟩
      · intro i hi; omega
      · simpa using hq
      · rw [← h]; simp [GraphicsDomain.emit]
    | false =>
      simp only [hq, Bool.not_false, if_true] at h
      obtain ⟨n, hn, hall, hlast, hd'⟩ := ih _ _ h
      simp only [GraphicsDomain.frame_eq, GraphicsDomain.emit] at hall hlast hd'
      refine ⟨n + 1, by omega, ?_, ?_, ?_⟩
      · intro i hi
        cases i with
        | zero => simpa using hq
        | succ i =>
          have := hall i (by omega)
          rw [← this]; congr 1; omega
      · rw [← hlast]; congr 1; omega
      · rw [hd']
        simp [List.replicate_succ, Nat.add_assoc, Nat.add_comm 1 n]

theorem GraphicsDomain.mainLoop_of_quit (env : Env) : ∀ (n fuel : Nat)
    (d : GraphicsDomain), n < fuel →
    (∀ i, i < n → env.quit (d.polls + i) = false) →
    env.quit (d.polls + n) = true →
    GraphicsDomain.mainLoop env fuel d
      = some { mRunning := d.mRunning,
               trace := d.trace
                 ++ (List.replicate n (DomainEvent.shouldQuit :: GraphicsDomain.frameOrder env)).flatten
                 ++ [DomainEvent.shouldQuit],
               polls := d.polls + n + 1 } := by
  intro n
  induction n with
  | zero =>
    intro fuel d hf _ hlast
    cases fuel with
    | zero => omega
    | succ fuel =>
      simp only [Nat.add_zero] at hlast
      simp [GraphicsDomain.mainLoop, GraphicsDomain.shouldQuit, hlast,
        GraphicsDomain.emit]
  | succ n ih =>
    intro fuel d hf hall hlast
    cases fuel with
    | zero => omega
    | succ fuel =>
      have h0 : env.quit d.polls = false := by simpa using hall 0 (Nat.succ_pos _)
      simp only [GraphicsDomain.mainLoop, GraphicsDomain.shouldQuit, h0,
        Bool.not_false, if_true]
      rw [ih fuel _ (by omega)]
      · simp [GraphicsDomain.frame_eq, GraphicsDomain.emit, List.replicate_succ,
          Nat.add_assoc, Nat.add_comm 1 n]
      · intro i hi
        simp only [GraphicsDomain.frame_eq, GraphicsDomain.emit]
        have := hall (i + 1) (by omega)
        rw [← this]; congr 1; omega
      · simp only [GraphicsDomain.frame_eq, GraphicsDomain.emit]
        rw [← hlast]; congr 1; omega

theorem GraphicsDomain.start_running (env : Env) (fuel : Nat) (d : GraphicsDomain)
    (h : d.mRunning = true) : GraphicsDomain.start env fuel d = some (true, d) := by
  simp [GraphicsDomain.start, h]

theorem GraphicsDomain.start_not_running (env : Env) (fuel : Nat) (d : GraphicsDomain)
    (h : d.mRunning = false) :
    GraphicsDomain.start env fuel d
      = (GraphicsDomain.mainLoop env fuel
          { mRunning := true,
            trace := d.trace
              ++ (DomainEvent.initializeSubdomains true ::
                    GraphicsDomain.passEvents .subInitialize true env.subs)
              ++ [DomainEvent.startFPS, DomainEvent.spu, DomainEvent.appCreate]
              ++ (DomainEvent.initializeSubdomains false ::
                    GraphicsDomain.passEvents .subInitialize false env.subs)
              ++ [DomainEvent.preOnCreate, DomainEvent.onCreate,
                    DomainEvent.callStartCallbacks],
            polls := d.polls }).map
          (fun d1 =>
            (GraphicsDomain.passResult SubDomain.initOk true env.subs
              && GraphicsDomain.passResult SubDomain.initOk false env.subs
              && (GraphicsDomain.stop env d1).1,
             (GraphicsDomain.stop env d1).2)) := by
  simp only [GraphicsDomain.start, h, Bool.not_false, if_true,
    GraphicsDomain.initializeSubdomains_eq, GraphicsDomain.appCreate,
    GraphicsDomain.emit, Bool.true_and, List.append_assoc, List.cons_append,
    List.nil_append]
  cases GraphicsDomain.mainLoop env fuel _ <;> rfl

theorem GraphicsDomain.mainLoop_createOk (env : Env) (b : Bool) :
    ∀ (fuel : Nat) (d : GraphicsDomain),
      GraphicsDomain.mainLoop { env with createOk := b } fuel d
        = GraphicsDomain.mainLoop env fuel d := by
  intro fuel
  induction fuel with
  | zero => intro d; rfl
  | succ fuel ih =>
    intro d
    simp only [GraphicsDomain.mainLoop]
    have e1 : GraphicsDomain.shouldQuit { env with createOk := b } d
        = GraphicsDomain.shouldQuit env d := rfl
    rw [e1]
    have e2 : ∀ x, GraphicsDomain.frame { env with createOk := b } x
        = GraphicsDomain.frame env x := fun _ => rfl
    rw [e2, ih]

theorem GraphicsDomain.mem_passEvents (ev : Nat → DomainEvent) (subs : List SubDomain)
    (sd : SubDomain) (h : sd ∈ subs) :
    ev sd.id ∈ GraphicsDomain.passEvents ev sd.pre subs := by
  unfold GraphicsDomain.passEvents
  apply List.mem_map.2
  exact ⟨sd, List.mem_filter.2 ⟨h, by simp⟩, rfl⟩

theorem GraphicsDomain.passResult_false (ok : SubDomain → Bool) (subs : List SubDomain)
    (sd : SubDomain) (h : sd ∈ subs) (hf : ok sd = false) :
    GraphicsDomain.passResult ok sd.pre subs = false := by
  unfold GraphicsDomain.passResult
  rw [List.all_eq_false]
  exact ⟨sd, List.mem_filter.2 ⟨h, by simp⟩, by simp [hf]⟩

theorem GraphicsDomain.count_passEvents (e : DomainEvent) (ev : Nat → DomainEvent)
    (pre : Bool) (subs : List SubDomain) (h : ∀ i, ev i ≠ e) :
    (GraphicsDomain.passEvents ev pre subs).count e = 0 := by
  rw [List.count_eq_zero]
  intro hm
  obtain ⟨sd, _, hsd⟩ := List.mem_map.1 hm
  exact h sd.id hsd

theorem GraphicsDomain.count_onDraw_frames (env : Env) (k : Nat) :
    (List.replicate k (DomainEvent.shouldQuit :: GraphicsDomain.frameOrder env)).flatten.count
      DomainEvent.onDraw = k := by
  have h1 := fun pre => GraphicsDomain.count_passEvents DomainEvent.onDraw
    DomainEvent.subTick pre env.subs (by intro i; simp)
  induction k with
  | zero => simp
  | succ k ih =>
    rw [List.replicate_succ, List.flatten_cons, List.count_append, ih]
    simp [GraphicsDomain.frameOrder, List.count_append, List.count_cons, h1]
    omega

theorem GraphicsDomain.start_of_quit (env : Env) (fuel : Nat) (d : GraphicsDomain)
    (n : Nat) (hr : d.mRunning = false) (hn : n < fuel)
    (hall : ∀ i, i < n → env.quit (d.polls + i) = false)
    (hlast : env.quit (d.polls + n) = true) :
    ∃ d', GraphicsDomain.start env fuel d
        = some (GraphicsDomain.passResult SubDomain.initOk true env.subs
              && GraphicsDomain.passResult SubDomain.initOk false env.subs
              && (GraphicsDomain.passResult SubDomain.cleanupOk true env.subs
                  && GraphicsDomain.passResult SubDomain.cleanupOk false env.subs),
            d') ∧
      d'.trace.count DomainEvent.onDraw = d.trace.count DomainEvent.onDraw + n := by
  have key : ∀ x : GraphicsDomain, x.polls = d.polls →
      GraphicsDomain.mainLoop env fuel x
        = some { mRunning := x.mRunning,
                 trace := x.trace
                   ++ (List.replicate n
                        (DomainEvent.shouldQuit :: GraphicsDomain.frameOrder env)).flatten
                   ++ [DomainEvent.shouldQuit],
                 polls := x.polls + n + 1 } := by
    intro x hx
    exact GraphicsDomain.mainLoop_of_quit env n fuel x hn
      (by rw [hx]; exact hall) (by rw [hx]; exact hlast)
  have h1 := fun pre => GraphicsDomain.count_passEvents DomainEvent.onDraw
    DomainEvent.subInitialize pre env.subs (by intro i; simp)
  have h2 := fun pre => GraphicsDomain.count_passEvents DomainEvent.onDraw
    DomainEvent.subCleanup pre env.subs (by intro i; simp)
  rw [GraphicsDomain.start_not_running env fuel d hr, key]
  · simp only [Option.map_some', GraphicsDomain.stop_eq]
    refine ⟨_, rfl, ?_⟩
    simp [List.count_append, List.count_cons, GraphicsDomain.count_onDraw_frames,
      h1, h2]
  · rfl

/-! ## Start and stop of the graphics domain -/

/-- C17, as stated, fails: with a window creation that fails, a quit flag
that is clear at the first examination, and sub-domains that all succeed,
`start` on a fresh domain runs a frame body (a sub-domain tick and the user
draw callback are in the trace) and reports success. -/
theorem start_runs_frames_after_failed_create :
    failedCreateEnv.createOk = false ∧
    ∃ d', GraphicsDomain.start failedCreateEnv 2 GraphicsDomain.fresh = some (true, d') ∧
      DomainEvent.onDraw ∈ d'.trace ∧ DomainEvent.subTick 1 ∈ d'.trace :=
  ⟨rfl, _, rfl, by decide, by decide⟩

/-- C17, amended: `start` does not examine the outcome of the window
creation. Its result and everything it does are the same whether the
creation succeeds or fails; on a domain that is not running, when the quit
flag is clear at the first `n` examinations and set at the next, and the fuel
exceeds `n`, `start` enters the main loop, runs `n` frame bodies, stops, and
reports the conjunction of the two initialisation passes and of `stop`. -/
theorem start_ignores_create_outcome (env : Env) (b : Bool) (fuel : Nat)
    (d : GraphicsDomain) :
    GraphicsDomain.start { env with createOk := b } fuel d
      = GraphicsDomain.start env fuel d ∧
    (∀ n, d.mRunning = false → n < fuel →
      (∀ i, i < n → env.quit (d.polls + i) = false) →
      env.quit (d.polls + n) = true →
      ∃ d', GraphicsDomain.start env fuel d
          = some (GraphicsDomain.passResult SubDomain.initOk true env.subs
                && GraphicsDomain.passResult SubDomain.initOk false env.subs
                && (GraphicsDomain.passResult SubDomain.cleanupOk true env.subs
                    && GraphicsDomain.passResult SubDomain.cleanupOk false env.subs),
              d') ∧
        d'.trace.count DomainEvent.onDraw = d.trace.count DomainEvent.onDraw + n) := by
  constructor
  · by_cases h : d.mRunning = true
    · rw [GraphicsDomain.start_running _ fuel d h, GraphicsDomain.start_running _ fuel d h]
    · have h' : d.mRunning = false := by simpa using h
      rw [GraphicsDomain.start_not_running _ fuel d h',
        GraphicsDomain.start_not_running _ fuel d h',
        GraphicsDomain.mainLoop_createOk]
      rfl
  · intro n hr hn hall hlast
    exact GraphicsDomain.start_of_quit env fuel d n hr hn hall hlast

/-- Witness of the amended C17: the failing creation of `failedCreateEnv`
replaced by a succeeding one gives the same run, with one frame. -/
theorem start_ignores_create_outcome_witness :
    GraphicsDomain.start { failedCreateEnv with createOk := true } 2 GraphicsDomain.fresh
      = GraphicsDomain.start failedCreateEnv 2 GraphicsDomain.fresh ∧
    ∃ d', GraphicsDomain.start failedCreateEnv 2 GraphicsDomain.fresh = some (true, d') ∧
      d'.trace.count DomainEvent.onDraw = 1 := by
  have h := start_ignores_create_outcome failedCreateEnv true 2 GraphicsDomain.fresh
  obtain ⟨d', h1, h2⟩ := h.2 1 rfl (by decide) (by intro i hi; interval_cases i; rfl) rfl
  exact ⟨h.1, d', h1, h2⟩

/-- C18, as stated, fails: in the trace of `stop` on a fresh domain with the
two sample sub-domains, the first entry is the stop callbacks, the pre pass
of the sub-domain cleanup comes before the user `onExit` callback, and the
window is destroyed before the post pass of the cleanup. -/
theorem stop_cleans_up_before_onExit :
    (GraphicsDomain.stop sampleEnv GraphicsDomain.fresh).2.trace
      = [DomainEvent.callStopCallbacks, DomainEvent.cleanupSubdomains true,
         DomainEvent.subCleanup 1, DomainEvent.onExit, DomainEvent.postOnExit,
         DomainEvent.appDestroy, DomainEvent.cleanupSubdomains false,
         DomainEvent.subCleanup 2] ∧
    (GraphicsDomain.stop sampleEnv GraphicsDomain.fresh).2.trace.indexOf
        (DomainEvent.cleanupSubdomains true)
      < (GraphicsDomain.stop sampleEnv GraphicsDomain.fresh).2.trace.indexOf
        DomainEvent.onExit ∧
    (GraphicsDomain.stop sampleEnv GraphicsDomain.fresh).2.trace.indexOf
        DomainEvent.appDestroy
      < (GraphicsDomain.stop sampleEnv GraphicsDomain.fresh).2.trace.indexOf
        (DomainEvent.cleanupSubdomains false) := by
  decide

/-- C18, amended: `stop` adds to the trace, in this order, the stop
callbacks, the pre pass of the sub-domain cleanup, the user `onExit`
callback, `postOnExit`, the destruction of the window, and the post pass of
the sub-domain cleanup, each once; its result is the conjunction of the two
cleanup passes and `mRunning` is false afterwards. -/
theorem stop_order (env : Env) (d : GraphicsDomain) :
    (GraphicsDomain.stop env d).2.trace
      = d.trace ++ [DomainEvent.callStopCallbacks, DomainEvent.cleanupSubdomains true]
          ++ GraphicsDomain.passEvents .subCleanup true env.subs
          ++ [DomainEvent.onExit, DomainEvent.postOnExit, DomainEvent.appDestroy,
              DomainEvent.cleanupSubdomains false]
          ++ GraphicsDomain.passEvents .subCleanup false env.subs ∧
    (GraphicsDomain.stop env d).1
      = ((GraphicsDomain.cleanupSubdomains env true d).1
          && (GraphicsDomain.cleanupSubdomains env false d).1) ∧
    (GraphicsDomain.stop env d).1
      = (GraphicsDomain.passResult SubDomain.cleanupOk true env.subs
          && GraphicsDomain.passResult SubDomain.cleanupOk false env.subs) ∧
    (GraphicsDomain.stop env d).2.mRunning = false := by
  rw [GraphicsDomain.stop_eq]
  simp [GraphicsDomain.cleanupSubdomains_eq]

/-- C19: the body of the main loop adds to the trace, in this order,
`onNewFrame`, the acquisition of the sub-domain mutex, one
`tickSubdomains(true)` call with the ticks of the pre sub-domains, the
context made current, the pre-draw step, the user draw callback, the
post-draw step, the refresh, one `tickSubdomains(false)` call with the ticks
of the post sub-domains, the release of the mutex, and `tickFPS`. Every run
of the loop that ends consists of `n` iterations, each one examination of
the quit flag that finds it clear followed by this body, and one last
examination that finds it set; and the loop ends whenever the quit flag is
set at some examination and the fuel exceeds the number of iterations. -/
theorem main_loop_frame_order (env : Env) :
    (∀ d, (GraphicsDomain.frame env d).trace
      = d.trace
        ++ [DomainEvent.onNewFrame, DomainEvent.lock, DomainEvent.tickSubdomains true]
        ++ GraphicsDomain.passEvents .subTick true env.subs
        ++ [DomainEvent.makeCurrent, DomainEvent.preOnDraw, DomainEvent.onDraw,
            DomainEvent.postOnDraw, DomainEvent.refresh,
            DomainEvent.tickSubdomains false]
        ++ GraphicsDomain.passEvents .subTick false env.subs
        ++ [DomainEvent.unlock, DomainEvent.tickFPS]) ∧
    (∀ d, (GraphicsDomain.frame env d).trace = d.trace ++ GraphicsDomain.frameOrder env) ∧
    (∀ fuel d d', GraphicsDomain.mainLoop env fuel d = some d' →
      ∃ n, n < fuel ∧
        (∀ i, i < n → env.quit (d.polls + i) = false) ∧
        env.quit (d.polls + n) = true ∧
        d'.polls = d.polls + n + 1 ∧
        d'.trace = d.trace
          ++ (List.replicate n
                (DomainEvent.shouldQuit :: GraphicsDomain.frameOrder env)).flatten
          ++ [DomainEvent.shouldQuit]) ∧
    (∀ n fuel d, n < fuel → (∀ i, i < n → env.quit (d.polls + i) = false) →
      env.quit (d.polls + n) = true →
      ∃ d', GraphicsDomain.mainLoop env fuel d = some d') := by
  refine ⟨?_, ?_, ?_, ?_⟩
  · intro d
    rw [GraphicsDomain.frame_eq]
    simp [GraphicsDomain.frameOrder]
  · intro d
    rw [GraphicsDomain.frame_eq]
  · intro fuel d d' h
    obtain ⟨n, hn, hall, hlast, hd'⟩ := GraphicsDomain.mainLoop_some env fuel d d' h
    refine ⟨n, hn, hall, hlast, ?_, ?_⟩ <;> rw [hd']
  · intro n fuel d hn hall hlast
    exact ⟨_, GraphicsDomain.mainLoop_of_quit env n fuel d hn hall hlast⟩

/-- Witness of C19: with the sample environment the loop runs one iteration
and ends at the second examination of the quit flag. -/
theorem main_loop_frame_order_witness :
    ∃ d', GraphicsDomain.mainLoop sampleEnv 2 GraphicsDomain.fresh = some d' ∧
      d'.polls = 2 ∧
      d'.trace = [DomainEvent.shouldQuit, DomainEvent.onNewFrame, DomainEvent.lock,
        DomainEvent.tickSubdomains true, DomainEvent.subTick 1, DomainEvent.makeCurrent,
        DomainEvent.preOnDraw, DomainEvent.onDraw, DomainEvent.postOnDraw,
        DomainEvent.refresh, DomainEvent.tickSubdomains false, DomainEvent.subTick 2,
        DomainEvent.unlock, DomainEvent.tickFPS, DomainEvent.shouldQuit] := by
  obtain ⟨d', hd'⟩ := (main_loop_frame_order sampleEnv).2.2.2 1 2 GraphicsDomain.fresh
    (by decide) (by intro i hi; interval_cases i; rfl) rfl
  refine ⟨d', hd', ?_⟩
  have e : GraphicsDomain.mainLoop sampleEnv 2 GraphicsDomain.fresh = some _ := rfl
  rw [e] at hd'
  cases hd'
  exact ⟨rfl, by decide⟩

/-- C20, as stated, fails: on a domain that is already running, `start`
returns true at once and leaves the trace empty, although the pre pass of the
sub-domain initialisation, had it been attempted, would have reported
failure. -/
theorem start_on_running_domain_returns_true :
    GraphicsDomain.start sampleEnv 2 { GraphicsDomain.fresh with mRunning := true }
      = some (true, { GraphicsDomain.fresh with mRunning := true }) ∧
    ({ GraphicsDomain.fresh with mRunning := true } : GraphicsDomain).trace = [] ∧
    (GraphicsDomain.initializeSubdomains sampleEnv true GraphicsDomain.fresh).1 = false :=
  ⟨rfl, rfl, rfl⟩

/-- C20, amended: on a domain that is not running, every `start` that
returns has made the pre pass and then the post pass of the sub-domain
initialisation, each pass reaching every sub-domain that belongs to it
whatever the others answered; its result is the conjunction of the two
initialisation passes and of `stop`, so it is false as soon as one
sub-domain fails to initialise; and `start` does return when the quit flag
is set at some examination within the fuel. On a domain that is already
running `start` returns true and does nothing. -/
theorem start_aggregates_init_failures (env : Env) (fuel : Nat) (d : GraphicsDomain) :
    (d.mRunning = false → ∀ r d', GraphicsDomain.start env fuel d = some (r, d') →
      (∃ rest, d'.trace = d.trace
          ++ (DomainEvent.initializeSubdomains true ::
                GraphicsDomain.passEvents .subInitialize true env.subs)
          ++ [DomainEvent.startFPS, DomainEvent.spu, DomainEvent.appCreate]
          ++ (DomainEvent.initializeSubdomains false ::
                GraphicsDomain.passEvents .subInitialize false env.subs)
          ++ rest) ∧
      (∀ sd, sd ∈ env.subs →
        DomainEvent.subInitialize sd.id
          ∈ GraphicsDomain.passEvents .subInitialize sd.pre env.subs) ∧
      r = ((GraphicsDomain.initializeSubdomains env true d).1
            && (GraphicsDomain.initializeSubdomains env false d).1
            && (GraphicsDomain.stop env d).1) ∧
      ((∃ sd, sd ∈ env.subs ∧ sd.initOk = false) → r = false)) ∧
    (d.mRunning = false → ∀ n, n < fuel →
      (∀ i, i < n → env.quit (d.polls + i) = false) →
      env.quit (d.polls + n) = true →
      ∃ r d', GraphicsDomain.start env fuel d = some (r, d')) ∧
    (d.mRunning = true → GraphicsDomain.start env fuel d = some (true, d)) := by
  refine ⟨?_, ?_, GraphicsDomain.start_running env fuel d⟩
  · intro hr r d' h
    rw [GraphicsDomain.start_not_running env fuel d hr] at h
    cases hm : GraphicsDomain.mainLoop env fuel
        { mRunning := true,
          trace := d.trace
            ++ (DomainEvent.initializeSubdomains true ::
                  GraphicsDomain.passEvents .subInitialize true env.subs)
            ++ [DomainEvent.startFPS, DomainEvent.spu, DomainEvent.appCreate]
            ++ (DomainEvent.initializeSubdomains false ::
                  GraphicsDomain.passEvents .subInitialize false env.subs)
            ++ [DomainEvent.preOnCreate, DomainEvent.onCreate,
                  DomainEvent.callStartCallbacks],
          polls := d.polls } with
    | none => rw [hm] at h; cases h
    | some d1 =>
      rw [hm] at h
      simp only [Option.map_some', Option.some.injEq, Prod.mk.injEq] at h
      obtain ⟨hres, hd'⟩ := h
      obtain ⟨n, _, _, _, hd1⟩ := GraphicsDomain.mainLoop_some env fuel _ d1 hm
      have hr3 : r = (GraphicsDomain.passResult SubDomain.initOk true env.subs
          && GraphicsDomain.passResult SubDomain.initOk false env.subs
          && (GraphicsDomain.passResult SubDomain.cleanupOk true env.subs
              && GraphicsDomain.passResult SubDomain.cleanupOk false env.subs)) := by
        rw [← hres, GraphicsDomain.stop_eq]
      refine ⟨?_, ?_, ?_, ?_⟩
      · rw [← hd', GraphicsDomain.stop_eq, hd1]
        exact ⟨_, by simp only [List.append_assoc]; rfl⟩
      · intro sd hsd
        exact GraphicsDomain.mem_passEvents _ env.subs sd hsd
      · rw [hr3]
        simp [GraphicsDomain.initializeSubdomains_eq, GraphicsDomain.stop_eq]
      · rintro ⟨sd, hsd, hf⟩
        have := GraphicsDomain.passResult_false SubDomain.initOk env.subs sd hsd hf
        rw [hr3]
        cases hp : sd.pre <;> rw [hp] at this <;> simp [this]
  · intro hr n hn hall hlast
    obtain ⟨d', hd', _⟩ := GraphicsDomain.start_of_quit env fuel d n hr hn hall hlast
    exact ⟨_, d', hd'⟩

/-- Witness of the amended C20: sub-domain 1 of the sample environment fails
in the pre pass; `start` on a fresh domain still reaches sub-domain 2 in the
post pass and returns false. -/
theorem start_aggregates_init_failures_witness :
    ∃ d', GraphicsDomain.start sampleEnv 2 GraphicsDomain.fresh = some (false, d') ∧
      DomainEvent.subInitialize 2
        ∈ GraphicsDomain.passEvents .subInitialize false sampleEnv.subs ∧
      DomainEvent.subInitialize 2 ∈ d'.trace := by
  have e : GraphicsDomain.start sampleEnv 2 GraphicsDomain.fresh = some (false, _) := rfl
  have h := (start_aggregates_init_failures sampleEnv 2 GraphicsDomain.fresh).1 rfl
    false _ e
  exact ⟨_, e,
    h.2.1 { id := 2, pre := false, initOk := true, tickOk := true, cleanupOk := true }
      (by decide),
    by decide⟩

/-! ## Consistency of the registry -/

theorem ObjOp.run_reachable {σ : Type} (op : ObjOp σ) (w : World σ)
    (h : Reachable w.reg) : Reachable (op.run w).reg := by
  cases op with
  | construct r ctx sub => exact Reachable.register r ctx h
  | constructIn r ctx sub => exact Reachable.register r ctx.contextID h
  | register r ctx => exact Reachable.register r ctx h
  | unregister r => exact Reachable.unregister r h
  | destruct r => exact Reachable.unregister r h

theorem runObjOps_reachable {σ : Type} (ops : List (ObjOp σ)) :
    ∀ w : World σ, Reachable w.reg → Reachable (runObjOps ops w).reg := by
  induction ops with
  | nil => intro w h; exact h
  | cons op ops ih =>
    intro w h
    unfold runObjOps
    rw [List.foldl_cons]
    exact ih _ (op.run_reachable w h)

theorem runObjOps_append {σ : Type} (xs ys : List (ObjOp σ)) (w : World σ) :
    runObjOps (xs ++ ys) w = runObjOps ys (runObjOps xs w) := by
  simp [runObjOps, List.foldl_append]

/-- C21: starting from the empty registry, after every finite sequence of
`GPUObject` constructions (by either constructor), `contextRegister` calls,
`contextUnregister` calls and `GPUObject` destructions, a resource `r` is an
element of the set mapped to context id `c` if and only if the reverse map
sends `r` to `c`; so a resource without a reverse entry is in no set, and
right after the destructor of `r` has run, `r` is in no set and has no
reverse entry. -/
theorem registry_maps_agree {σ : Type} (mem : Nat → GPUObject σ)
    (ops : List (ObjOp σ)) (r : Nat) :
    (∀ c, inSet (runObjOps ops (World.initial mem)).reg c r
      ↔ (runObjOps ops (World.initial mem)).reg.resources r = some c) ∧
    ((runObjOps ops (World.initial mem)).reg.resources r = none →
      ∀ c, ¬ inSet (runObjOps ops (World.initial mem)).reg c r) ∧
    ((∀ c, ¬ inSet (runObjOps (ops ++ [.destruct r]) (World.initial mem)).reg c r) ∧
      (runObjOps (ops ++ [.destruct r]) (World.initial mem)).reg.resources r = none) := by
  have hre := runObjOps_reachable ops (World.initial mem) Reachable.empty
  have hinv := hre.inv
  refine ⟨fun c => hinv.2 c r, ?_, ?_, ?_⟩
  · intro hnone c hc
    rw [(hinv.2 c r).1 hc] at hnone
    cases hnone
  · intro c hc
    rw [runObjOps_append] at hc
    exact ((unregister_inSet r r c _ hinv).1 hc).1 rfl
  · rw [runObjOps_append]
    show (contextUnregister r (runObjOps ops (World.initial mem)).reg).resources r = none
    rw [unregister_resources]
    simp

/-- Witness of C21: after the sample steps resource 5 is in the set of
context 2 and the reverse map sends it there; resource 6, destructed, is in
no set. -/
theorem registry_maps_agree_witness :
    inSet (runObjOps sampleObjOps (World.initial (fun _ => GPUObject.init 0))).reg 2 5 ∧
    (runObjOps sampleObjOps (World.initial (fun _ => GPUObject.init 0))).reg.resources 5
      = some 2 ∧
    (runObjOps sampleObjOps (World.initial (fun _ => GPUObject.init 0))).reg.resources 6
      = none ∧
    ¬ inSet (runObjOps sampleObjOps (World.initial (fun _ => GPUObject.init 0))).reg 1 6 := by
  have h5 := registry_maps_agree (fun _ => GPUObject.init 0) sampleObjOps 5
  have h6 := registry_maps_agree (fun _ => GPUObject.init 0) sampleObjOps 6
  have e : (runObjOps sampleObjOps (World.initial (fun _ => GPUObject.init 0))).reg.resources 6
      = none := by decide
  exact ⟨(h5.1 2).2 (by decide), (h5.1 2).1 (by decide), e, h6.2.1 e 1⟩

end al
